import Mathlib

/-!
Verification of the go-suretax client library (src/client.go).

The development shallowly embeds the parts of the program the claims are
about:

* a JSON value type `Json` together with a renderer `Json.render` mirroring
  Go's `encoding/json` marshalling output (field order = struct declaration
  order, Go's default string escaping including HTML escaping), and an
  executable parser `Json.parse` mirroring the acceptance behaviour of
  `encoding/json`'s scanner (a JSON number is kept as its literal token);
* the request/response schema structs of `client.go` with their Go-faithful
  marshal/unmarshal functions (missing field keeps the zero value, `null`
  leaves the value unchanged, object keys match field names ASCII
  case-insensitively with the last occurrence winning, a type mismatch is an
  error — modelled fail-first, observationally equal for the claims);
* the `Send`/`Cancel` orchestration of `SuretaxClient` as a pure function
  over an injected HTTP client, returning the Go result pair together with
  an effect trace (body closed / body read / decode attempted);
* the double-checked-locking `getClient` as an interleaving transition
  system for the concurrency claim.

Go's `float64` response fields are represented by `Rat`; no claim depends on
IEEE rounding. Go errors are represented by an inductive with one
constructor per `fmt.Errorf` site of `client.go`.
-/

namespace Suretax

/-! ## JSON values -/

/-- JSON values. `num` keeps the raw numeric literal exactly as scanned, the
way Go's decoder keeps a `json.Number` token before conversion. -/
inductive Json where
| null : Json
| bool (b : Bool) : Json
| num (lit : String) : Json
| str (v : String) : Json
| arr (l : List Json) : Json
| obj (m : List (String × Json)) : Json

/-! ### Rendering (Go `json.Marshal` output) -/

def hexDigitChar (n : Nat) : Char :=
  if n < 10 then Char.ofNat (48 + n) else Char.ofNat (87 + n)

/-- The six-character escape `\uXXXX` (lowercase hex) Go emits. -/
def hexEscape (n : Nat) : List Char :=
  '\\' :: 'u' :: hexDigitChar (n / 4096 % 16) :: hexDigitChar (n / 256 % 16) ::
    hexDigitChar (n / 16 % 16) :: hexDigitChar (n % 16) :: []

/-- Go's default string escaping (`encodeState.string` with HTML escaping
on, as used by `json.Marshal`): quote, backslash, the three two-character
escapes, `\u00XX` for the remaining control characters, `<`, `>`,
`&` for the HTML-sensitive characters and ` `/` `. -/
def escapeChar (c : Char) : List Char :=
  if c = '"' then '\\' :: '"' :: []
  else if c = '\\' then '\\' :: '\\' :: []
  else if c = '\n' then '\\' :: 'n' :: []
  else if c = '\r' then '\\' :: 'r' :: []
  else if c = '\t' then '\\' :: 't' :: []
  else if c.toNat < 32 ∨ c = '<' ∨ c = '>' ∨ c = '&' ∨
      c.toNat = 8232 ∨ c.toNat = 8233 then hexEscape c.toNat
  else [c]

def escapeList (l : List Char) : List Char := l.flatMap escapeChar

def renderStr (s : String) : List Char :=
  '"' :: (escapeList s.data ++ ['"'])

mutual

def renderL : Json → List Char
| .null => 'n' :: 'u' :: 'l' :: 'l' :: []
| .bool true => 't' :: 'r' :: 'u' :: 'e' :: []
| .bool false => 'f' :: 'a' :: 'l' :: 's' :: 'e' :: []
| .num lit => lit.data
| .str v => renderStr v
| .arr l => '[' :: (renderElems l ++ [']'])
| .obj m => '\x7b' :: (renderMembers m ++ ['\x7d'])

/-- Array elements, comma-separated (no leading or trailing comma). -/
def renderElems : List Json → List Char
| [] => []
| x :: xs => renderL x ++ renderElemsTail xs

def renderElemsTail : List Json → List Char
| [] => []
| x :: xs => ',' :: (renderL x ++ renderElemsTail xs)

/-- Object members, comma-separated (no leading or trailing comma). -/
def renderMembers : List (String × Json) → List Char
| [] => []
| (k, v) :: xs => renderStr k ++ (':' :: renderL v) ++ renderMembersTail xs

def renderMembersTail : List (String × Json) → List Char
| [] => []
| (k, v) :: xs => ',' :: (renderStr k ++ (':' :: renderL v) ++ renderMembersTail xs)

end

def Json.render (j : Json) : String := String.mk (renderL j)

/-! ### Parsing (Go `json.Unmarshal` scanner acceptance) -/

/-- The whitespace characters Go's scanner skips. -/
def isWs (c : Char) : Bool :=
  c = ' ' || c = '\t' || c = '\n' || c = '\r'

def skipWs : List Char → List Char
| [] => []
| c :: l => if isWs c then skipWs l else c :: l

def hexVal (c : Char) : Option Nat :=
  if 48 ≤ c.toNat ∧ c.toNat ≤ 57 then some (c.toNat - 48)
  else if 97 ≤ c.toNat ∧ c.toNat ≤ 102 then some (c.toNat - 87)
  else if 65 ≤ c.toNat ∧ c.toNat ≤ 70 then some (c.toNat - 55)
  else none

def hex4 (a b c d : Char) : Option Nat :=
  (hexVal a).bind fun va => (hexVal b).bind fun vb => (hexVal c).bind fun vc =>
    (hexVal d).map fun vd => ((va * 16 + vb) * 16 + vc) * 16 + vd

/-- The two-character escapes Go's decoder accepts. -/
def escDecode (e : Char) : Option Char :=
  if e = '"' then some '"'
  else if e = '\\' then some '\\'
  else if e = '/' then some '/'
  else if e = 'b' then some (Char.ofNat 8)
  else if e = 'f' then some (Char.ofNat 12)
  else if e = 'n' then some '\n'
  else if e = 'r' then some '\r'
  else if e = 't' then some '\t'
  else none

/-- Body of a string literal, after the opening quote.  Mirrors Go's
`unquoteBytes`: raw characters at or above 0x20, the named escapes, `\uXXXX`
with UTF-16 surrogate pairs combined and unpaired surrogates replaced by
U+FFFD.  The fuel only serves the termination checker: one unit is spent per
scanned string element, so any fuel above the input length is enough. -/
def parseStrBody : Nat → List Char → List Char → Option (String × List Char)
| 0, _, _ => none
| _ + 1, _, [] => none
| fuel + 1, acc, c :: cs =>
  if c = '"' then some (String.mk acc.reverse, cs)
  else if c = '\\' then
    match cs with
    | [] => none
    | e :: cs2 =>
      if e = 'u' then
        match cs2 with
        | a :: b :: c2 :: d :: cs3 =>
          (hex4 a b c2 d).bind fun n =>
            if 55296 ≤ n ∧ n < 57344 then
              match cs3 with
              | '\\' :: 'u' :: a2 :: b2 :: c4 :: d2 :: cs4 =>
                match hex4 a2 b2 c4 d2 with
                | some m =>
                  if n < 56320 ∧ 56320 ≤ m ∧ m < 57344 then
                    parseStrBody fuel
                      (Char.ofNat (65536 + (n - 55296) * 1024 + (m - 56320)) :: acc) cs4
                  else parseStrBody fuel (Char.ofNat 65533 :: acc) cs3
                | none => parseStrBody fuel (Char.ofNat 65533 :: acc) cs3
              | _ => parseStrBody fuel (Char.ofNat 65533 :: acc) cs3
            else parseStrBody fuel (Char.ofNat n :: acc) cs3
        | _ => none
      else
        match escDecode e with
        | some dch => parseStrBody fuel (dch :: acc) cs2
        | none => none
  else if c.toNat < 32 then none
  else parseStrBody fuel (c :: acc) cs

def isDigit (c : Char) : Bool := 48 ≤ c.toNat && c.toNat ≤ 57

def spanDigits : List Char → List Char × List Char
| [] => ([], [])
| c :: cs =>
  if isDigit c then
    let p := spanDigits cs
    (c :: p.1, p.2)
  else ([], c :: cs)

/-- Fraction-and-exponent tail of a number literal (Go scanner states
`stateDot`..`stateE0`); `none` marks a malformed literal. -/
def parseFracExp (cs : List Char) : Option (List Char × List Char) :=
  let step1 : Option (List Char × List Char) :=
    match cs with
    | '.' :: cs2 =>
      match spanDigits cs2 with
      | ([], _) => none
      | (ds, rest) => some ('.' :: ds, rest)
    | _ => some ([], cs)
  match step1 with
  | none => none
  | some (fr, cs3) =>
    match cs3 with
    | 'e' :: cs4 =>
      match cs4 with
      | '+' :: cs5 =>
        match spanDigits cs5 with
        | ([], _) => none
        | (ds, rest) => some (fr ++ ('e' :: '+' :: ds), rest)
      | '-' :: cs5 =>
        match spanDigits cs5 with
        | ([], _) => none
        | (ds, rest) => some (fr ++ ('e' :: '-' :: ds), rest)
      | _ =>
        match spanDigits cs4 with
        | ([], _) => none
        | (ds, rest) => some (fr ++ ('e' :: ds), rest)
    | 'E' :: cs4 =>
      match cs4 with
      | '+' :: cs5 =>
        match spanDigits cs5 with
        | ([], _) => none
        | (ds, rest) => some (fr ++ ('E' :: '+' :: ds), rest)
      | '-' :: cs5 =>
        match spanDigits cs5 with
        | ([], _) => none
        | (ds, rest) => some (fr ++ ('E' :: '-' :: ds), rest)
      | _ =>
        match spanDigits cs4 with
        | ([], _) => none
        | (ds, rest) => some (fr ++ ('E' :: ds), rest)
    | _ => some (fr, cs3)

/-- A JSON number literal: optional minus, `0` or a nonzero-led digit run,
optional fraction, optional exponent.  Returns the literal token. -/
def parseNumLit (cs : List Char) : Option (String × List Char) :=
  let core : List Char → Option (List Char × List Char) := fun l =>
    match l with
    | '0' :: rest => some (['0'], rest)
    | c :: rest =>
      if isDigit c then
        match spanDigits rest with
        | (ds, rest2) => some (c :: ds, rest2)
      else none
    | [] => none
  match cs with
  | '-' :: cs2 =>
    match core cs2 with
    | none => none
    | some (ip, cs3) =>
      match parseFracExp cs3 with
      | none => none
      | some (fe, rest) => some (String.mk ('-' :: ip ++ fe), rest)
  | _ =>
    match core cs with
    | none => none
    | some (ip, cs3) =>
      match parseFracExp cs3 with
      | none => none
      | some (fe, rest) => some (String.mk (ip ++ fe), rest)

/-- Parser work item: a value, the inside of an array after `[` or of an
object after `{` (whitespace already skipped), or the elements / members of
a non-empty array / object. -/
inductive PQ where
| v (cs : List Char)
| arrTail (cs : List Char)
| objTail (cs : List Char)
| elems (cs : List Char)
| membs (cs : List Char)

/-- Parser answer matching the three work-item kinds. -/
inductive PA where
| v (j : Json) (rest : List Char)
| elems (l : List Json) (rest : List Char)
| membs (m : List (String × Json)) (rest : List Char)

/-- Continues with a parsed value (`PA.v`) or fails. -/
def paV : Option PA → (Json → List Char → Option PA) → Option PA
| some (.v j r), k => k j r
| _, _ => none

/-- Continues with parsed array elements (`PA.elems`) or fails. -/
def paEs : Option PA → (List Json → List Char → Option PA) → Option PA
| some (.elems l r), k => k l r
| _, _ => none

/-- Continues with parsed object members (`PA.membs`) or fails. -/
def paMs : Option PA → (List (String × Json) → List Char → Option PA) → Option PA
| some (.membs m r), k => k m r
| _, _ => none

mutual

/-- One fuel-indexed recursive parser covering values, array elements and
object members; the fuel only bounds the recursion (a few units per
consumed character), it never cuts short an accepted input. -/
def parseP : Nat → PQ → Option PA
| 0, _ => none
| fuel + 1, .v cs =>
  match skipWs cs with
  | '"' :: r => (parseStrBody (r.length + 1) [] r).map fun p => .v (Json.str p.1) p.2
  | '\x7b' :: r => parseP fuel (.objTail (skipWs r))
  | '[' :: r => parseP fuel (.arrTail (skipWs r))
  | 't' :: 'r' :: 'u' :: 'e' :: r => some (.v (Json.bool true) r)
  | 'f' :: 'a' :: 'l' :: 's' :: 'e' :: r => some (.v (Json.bool false) r)
  | 'n' :: 'u' :: 'l' :: 'l' :: r => some (.v Json.null r)
  | r =>
    match parseNumLit r with
    | some (lit, rest) => some (.v (Json.num lit) rest)
    | none => none
| fuel + 1, .arrTail cs =>
  match cs with
  | [] => none
  | c :: r2 =>
    if c = ']' then some (.v (Json.arr []) r2)
    else paEs (parseP fuel (.elems (c :: r2))) fun l rest => some (.v (Json.arr l) rest)
| fuel + 1, .objTail cs =>
  match cs with
  | [] => none
  | c :: r2 =>
    if c = '\x7d' then some (.v (Json.obj []) r2)
    else paMs (parseP fuel (.membs (c :: r2))) fun m rest => some (.v (Json.obj m) rest)
| fuel + 1, .elems cs => paV (parseP fuel (.v cs)) (elemsCont fuel)
| fuel + 1, .membs cs =>
  match cs with
  | '"' :: r => (parseStrBody (r.length + 1) [] r).bind fun p => membsKeyCont fuel p.1 p.2
  | _ => none

/-- After one array element: a comma continues the element list, `]` closes
the array. -/
def elemsCont : Nat → Json → List Char → Option PA
| 0, _, _ => none
| fuel + 1, j, r =>
  match skipWs r with
  | ',' :: r2 => paEs (parseP fuel (.elems r2)) fun l rest => some (.elems (j :: l) rest)
  | ']' :: r2 => some (.elems [j] r2)
  | _ => none

/-- After an object key: a colon, then the member's value. -/
def membsKeyCont : Nat → String → List Char → Option PA
| 0, _, _ => none
| fuel + 1, k, r =>
  match skipWs r with
  | ':' :: r3 => paV (parseP fuel (.v r3)) (membsValCont fuel k)
  | _ => none

/-- After one object member: a comma continues the member list, `}` closes
the object. -/
def membsValCont : Nat → String → Json → List Char → Option PA
| 0, _, _, _ => none
| fuel + 1, k, j, r =>
  match skipWs r with
  | ',' :: r5 =>
    paMs (parseP fuel (.membs (skipWs r5))) fun m rest => some (.membs ((k, j) :: m) rest)
  | '\x7d' :: r5 => some (.membs [(k, j)] r5)
  | _ => none

end

/-- `Json.parse` mirrors `json.Unmarshal`'s syntax layer: one JSON value,
then only whitespace may remain; anything else is a syntax error (`none`).
The fuel `2 * length + 8` dominates the parser's recursion depth (at most
three recursive steps per two consumed characters), so it never cuts off an
input Go's scanner would accept. -/
def Json.parse (s : String) : Option Json :=
  match parseP (2 * s.data.length + 8) (.v s.data) with
  | some (.v j rest) => if skipWs rest = [] then some j else none
  | _ => none

/-! ### Render-parse roundtrip -/

mutual

/-- Fuel needed by `parseP` to traverse a rendered value (dominates the
parser's recursion pattern: two steps to enter a composite, two per
element). -/
def msize : Json → Nat
| .null => 1
| .bool _ => 1
| .num _ => 1
| .str _ => 1
| .arr l => 2 + msizeElems l
| .obj m => 2 + msizeMembers m

def msizeElems : List Json → Nat
| [] => 0
| x :: xs => 2 + msize x + msizeElems xs

def msizeMembers : List (String × Json) → Nat
| [] => 0
| (_, v) :: xs => 2 + msize v + msizeMembers xs

end

mutual

/-- JSON trees without number literals (everything the client ever renders;
an arbitrary `num` token need not re-parse to itself). -/
def numFree : Json → Prop
| .null => True
| .bool _ => True
| .num _ => False
| .str _ => True
| .arr l => numFreeElems l
| .obj m => numFreeMembers m

def numFreeElems : List Json → Prop
| [] => True
| x :: xs => numFree x ∧ numFreeElems xs

def numFreeMembers : List (String × Json) → Prop
| [] => True
| (_, v) :: xs => numFree v ∧ numFreeMembers xs

end

theorem one_le_length_escapeChar (c : Char) : 1 ≤ (escapeChar c).length := by
  unfold escapeChar hexEscape
  repeat' split
  all_goals simp

theorem length_le_escapeList (l : List Char) : l.length ≤ (escapeList l).length := by
  induction l with
  | nil => simp [escapeList]
  | cons c l ih =>
    have := one_le_length_escapeChar c
    simp only [escapeList, List.flatMap_cons, List.length_append, List.length_cons]
    have hl : l.length ≤ (l.flatMap escapeChar).length := by
      simpa [escapeList] using ih
    omega

theorem hexVal_hexDigitChar : ∀ m < 16, hexVal (hexDigitChar m) = some m := by decide

theorem hex4_hexDigitChar (n : Nat) (h : n < 65536) :
    hex4 (hexDigitChar (n / 4096 % 16)) (hexDigitChar (n / 256 % 16))
      (hexDigitChar (n / 16 % 16)) (hexDigitChar (n % 16)) = some n := by
  unfold hex4
  rw [hexVal_hexDigitChar _ (by omega), hexVal_hexDigitChar _ (by omega),
    hexVal_hexDigitChar _ (by omega), hexVal_hexDigitChar _ (by omega)]
  simp only [Option.bind, Option.map, Option.some.injEq]
  omega

theorem parseStrBody_u (f : Nat) (acc : List Char) (a b c1 d : Char) (X : List Char)
    (n : Nat) (hh : hex4 a b c1 d = some n) (hn : n < 55296) :
    parseStrBody (f + 1) acc ('\\' :: 'u' :: a :: b :: c1 :: d :: X) =
      parseStrBody f (Char.ofNat n :: acc) X := by
  have hstep : parseStrBody (f + 1) acc ('\\' :: 'u' :: a :: b :: c1 :: d :: X) =
      (hex4 a b c1 d).bind fun m =>
        if 55296 ≤ m ∧ m < 57344 then
          match X with
          | '\\' :: 'u' :: a2 :: b2 :: c4 :: d2 :: cs4 =>
            match hex4 a2 b2 c4 d2 with
            | some m2 =>
              if m < 56320 ∧ 56320 ≤ m2 ∧ m2 < 57344 then
                parseStrBody f
                  (Char.ofNat (65536 + (m - 55296) * 1024 + (m2 - 56320)) :: acc) cs4
              else parseStrBody f (Char.ofNat 65533 :: acc) X
            | none => parseStrBody f (Char.ofNat 65533 :: acc) X
          | _ => parseStrBody f (Char.ofNat 65533 :: acc) X
        else parseStrBody f (Char.ofNat m :: acc) X := rfl
  rw [hstep, hh]
  simp only [Option.bind]
  rw [if_neg (by omega)]

theorem parseStrBody_raw (f : Nat) (acc : List Char) (c : Char) (X : List Char)
    (h1 : ¬ c = '"') (h2 : ¬ c = '\\') (h3 : ¬ c.toNat < 32) :
    parseStrBody (f + 1) acc (c :: X) = parseStrBody f (c :: acc) X := by
  show (if c = '"' then some (String.mk acc.reverse, X)
    else if c = '\\' then
      match X with
      | [] => none
      | e :: cs2 =>
        if e = 'u' then
          match cs2 with
          | a :: b :: c2 :: d :: cs3 =>
            (hex4 a b c2 d).bind fun n =>
              if 55296 ≤ n ∧ n < 57344 then
                match cs3 with
                | '\\' :: 'u' :: a2 :: b2 :: c4 :: d2 :: cs4 =>
                  match hex4 a2 b2 c4 d2 with
                  | some m =>
                    if n < 56320 ∧ 56320 ≤ m ∧ m < 57344 then
                      parseStrBody f
                        (Char.ofNat (65536 + (n - 55296) * 1024 + (m - 56320)) :: acc) cs4
                    else parseStrBody f (Char.ofNat 65533 :: acc) cs3
                  | none => parseStrBody f (Char.ofNat 65533 :: acc) cs3
                | _ => parseStrBody f (Char.ofNat 65533 :: acc) cs3
              else parseStrBody f (Char.ofNat n :: acc) cs3
          | _ => none
        else
          match escDecode e with
          | some dch => parseStrBody f (dch :: acc) cs2
          | none => none
    else if c.toNat < 32 then none
    else parseStrBody f (c :: acc) X) = parseStrBody f (c :: acc) X
  rw [if_neg h1, if_neg h2, if_neg h3]

theorem parseStrBody_esc (f : Nat) (acc : List Char) (e : Char) (X : List Char) (dch : Char)
    (hu : ¬ e = 'u') (he : escDecode e = some dch) :
    parseStrBody (f + 1) acc ('\\' :: e :: X) = parseStrBody f (dch :: acc) X := by
  show (if e = 'u' then
      match X with
      | a :: b :: c2 :: d :: cs3 =>
        (hex4 a b c2 d).bind fun n =>
          if 55296 ≤ n ∧ n < 57344 then
            match cs3 with
            | '\\' :: 'u' :: a2 :: b2 :: c4 :: d2 :: cs4 =>
              match hex4 a2 b2 c4 d2 with
              | some m =>
                if n < 56320 ∧ 56320 ≤ m ∧ m < 57344 then
                  parseStrBody f
                    (Char.ofNat (65536 + (n - 55296) * 1024 + (m - 56320)) :: acc) cs4
                else parseStrBody f (Char.ofNat 65533 :: acc) cs3
              | none => parseStrBody f (Char.ofNat 65533 :: acc) cs3
            | _ => parseStrBody f (Char.ofNat 65533 :: acc) cs3
          else parseStrBody f (Char.ofNat n :: acc) cs3
      | _ => none
    else
      match escDecode e with
      | some dch2 => parseStrBody f (dch2 :: acc) X
      | none => none) = parseStrBody f (dch :: acc) X
  rw [if_neg hu, he]

theorem parseStrBody_escapeList (l : List Char) : ∀ (fuel : Nat) (acc rest : List Char),
    l.length < fuel →
    parseStrBody fuel acc (escapeList l ++ ('"' :: rest)) =
      some (String.mk (acc.reverse ++ l), rest) := by
  induction l with
  | nil =>
    intro fuel acc rest hf
    obtain ⟨f, rfl⟩ : ∃ f, fuel = f + 1 := ⟨fuel - 1, by omega⟩
    simp [escapeList, parseStrBody]
  | cons c l ih =>
    intro fuel acc rest hf
    obtain ⟨f, rfl⟩ : ∃ f, fuel = f + 1 := ⟨fuel - 1, by omega⟩
    have hl : l.length < f := by
      simp only [List.length_cons] at hf; omega
    have hstep : escapeList (c :: l) = escapeChar c ++ escapeList l := by
      simp [escapeList]
    rw [hstep, List.append_assoc]
    by_cases h1 : c = '"'
    · subst h1
      rw [show escapeChar '"' = ['\\', '"'] from rfl]
      simp only [List.cons_append, List.nil_append]
      rw [parseStrBody_esc f acc '"' _ '"' (by decide) rfl]
      rw [ih f _ rest hl]
      simp
    · by_cases h2 : c = '\\'
      · subst h2
        rw [show escapeChar '\\' = ['\\', '\\'] from rfl]
        simp only [List.cons_append, List.nil_append]
        rw [parseStrBody_esc f acc '\\' _ '\\' (by decide) rfl]
        rw [ih f _ rest hl]
        simp
      · by_cases h3 : c = '\n'
        · subst h3
          rw [show escapeChar '\n' = ['\\', 'n'] from rfl]
          simp only [List.cons_append, List.nil_append]
          rw [parseStrBody_esc f acc 'n' _ '\n' (by decide) rfl]
          rw [ih f _ rest hl]
          simp
        · by_cases h4 : c = '\r'
          · subst h4
            rw [show escapeChar '\r' = ['\\', 'r'] from rfl]
            simp only [List.cons_append, List.nil_append]
            rw [parseStrBody_esc f acc 'r' _ '\r' (by decide) rfl]
            rw [ih f _ rest hl]
            simp
          · by_cases h5 : c = '\t'
            · subst h5
              rw [show escapeChar '\t' = ['\\', 't'] from rfl]
              simp only [List.cons_append, List.nil_append]
              rw [parseStrBody_esc f acc 't' _ '\t' (by decide) rfl]
              rw [ih f _ rest hl]
              simp
            · by_cases h6 : c.toNat < 32 ∨ c = '<' ∨ c = '>' ∨ c = '&' ∨
                  c.toNat = 8232 ∨ c.toNat = 8233
              · have hesc : escapeChar c = hexEscape c.toNat := by
                  rw [escapeChar, if_neg h1, if_neg h2, if_neg h3, if_neg h4, if_neg h5,
                    if_pos h6]
                have hnum : c.toNat < 32 ∨ c.toNat = 60 ∨ c.toNat = 62 ∨ c.toNat = 38 ∨
                    c.toNat = 8232 ∨ c.toNat = 8233 := by
                  rcases h6 with h | h | h | h | h | h
                  · exact Or.inl h
                  · subst h; right; left; rfl
                  · subst h; right; right; left; rfl
                  · subst h; right; right; right; left; rfl
                  · exact Or.inr (Or.inr (Or.inr (Or.inr (Or.inl h))))
                  · exact Or.inr (Or.inr (Or.inr (Or.inr (Or.inr h))))
                have h65 : c.toNat < 65536 := by omega
                have hlt : c.toNat < 55296 := by omega
                rw [hesc]
                simp only [hexEscape, List.cons_append, List.nil_append]
                rw [parseStrBody_u f acc _ _ _ _ _ c.toNat (hex4_hexDigitChar c.toNat h65) hlt]
                rw [Char.ofNat_toNat]
                rw [ih f _ rest hl]
                simp
              · push_neg at h6
                obtain ⟨hn32, hlt2, hgt2, hamp2, h2028, h2029⟩ := h6
                have hesc : escapeChar c = [c] := by
                  rw [escapeChar, if_neg h1, if_neg h2, if_neg h3, if_neg h4, if_neg h5,
                    if_neg (show ¬ _ by push_neg; exact ⟨hn32, hlt2, hgt2, hamp2, h2028, h2029⟩)]
                rw [hesc]
                simp only [List.cons_append, List.nil_append]
                rw [parseStrBody_raw f acc c _ h1 h2 (by omega)]
                rw [ih f _ rest hl]
                simp

theorem parseStrBody_renderStr (s : String) (fuel : Nat) (rest : List Char)
    (hf : s.data.length < fuel) :
    parseStrBody fuel [] (escapeList s.data ++ ('"' :: rest)) = some (s, rest) := by
  rw [parseStrBody_escapeList s.data fuel [] rest hf]
  simp

theorem msize_pos (j : Json) : 1 ≤ msize j := by
  cases j <;> simp [msize] <;> omega

theorem skipWs_notWs (c : Char) (l : List Char) (h : isWs c = false) :
    skipWs (c :: l) = c :: l := by
  simp [skipWs, h]

theorem renderL_head (j : Json) (h : numFree j) :
    ∃ c cs, renderL j = c :: cs ∧ isWs c = false ∧ ¬ c = ']' ∧ ¬ c = '\x7d' := by
  cases j with
  | null => exact ⟨'n', _, rfl, by decide, by decide, by decide⟩
  | bool b =>
    cases b with
    | false => exact ⟨'f', _, rfl, by decide, by decide, by decide⟩
    | true => exact ⟨'t', _, rfl, by decide, by decide, by decide⟩
  | num lit => exact h.elim
  | str v => exact ⟨'"', _, rfl, by decide, by decide, by decide⟩
  | arr l => exact ⟨'[', _, rfl, by decide, by decide, by decide⟩
  | obj m => exact ⟨'\x7b', _, rfl, by decide, by decide, by decide⟩

mutual

theorem roundV (j : Json) (hnf : numFree j) : ∀ (fuel : Nat) (rest : List Char),
    msize j < fuel → parseP fuel (.v (renderL j ++ rest)) = some (.v j rest) := by
  cases j with
  | null =>
    intro fuel rest hm
    obtain ⟨f, rfl⟩ : ∃ f, fuel = f + 1 := ⟨fuel - 1, by omega⟩
    rfl
  | bool b =>
    intro fuel rest hm
    obtain ⟨f, rfl⟩ : ∃ f, fuel = f + 1 := ⟨fuel - 1, by omega⟩
    cases b with
    | false => rfl
    | true => rfl
  | num lit => exact hnf.elim
  | str v =>
    intro fuel rest hm
    obtain ⟨f, rfl⟩ : ∃ f, fuel = f + 1 := ⟨fuel - 1, by omega⟩
    have hshape : renderL (.str v) ++ rest = '"' :: (escapeList v.data ++ ('"' :: rest)) := by
      simp [renderL, renderStr]
    rw [hshape]
    show (parseStrBody ((escapeList v.data ++ ('"' :: rest)).length + 1) []
        (escapeList v.data ++ ('"' :: rest))).map (fun p => PA.v (Json.str p.1) p.2) =
      some (PA.v (Json.str v) rest)
    rw [parseStrBody_renderStr v _ rest (by
      have := length_le_escapeList v.data
      simp only [List.length_append, List.length_cons]
      omega)]
    rfl
  | arr l =>
    intro fuel rest hm
    simp only [msize] at hm
    obtain ⟨g, rfl⟩ : ∃ g, fuel = g + 2 := ⟨fuel - 2, by omega⟩
    have hshape : renderL (.arr l) ++ rest = '[' :: (renderElems l ++ (']' :: rest)) := by
      simp [renderL]
    rw [hshape]
    show parseP (g + 1) (.arrTail (skipWs (renderElems l ++ (']' :: rest)))) =
      some (.v (Json.arr l) rest)
    cases l with
    | nil => rfl
    | cons x xs =>
      obtain ⟨c0, cs0, hx, hw, hnb, hnbr⟩ := renderL_head x hnf.1
      have hshape2 : renderElems (x :: xs) ++ (']' :: rest) =
          c0 :: (cs0 ++ (renderElemsTail xs ++ (']' :: rest))) := by
        simp [renderElems, hx]
      rw [hshape2, skipWs_notWs _ _ hw]
      show (if c0 = ']' then
          some (PA.v (Json.arr []) (cs0 ++ (renderElemsTail xs ++ (']' :: rest))))
        else paEs (parseP g (.elems (c0 :: (cs0 ++ (renderElemsTail xs ++ (']' :: rest))))))
          fun l2 rest2 => some (PA.v (Json.arr l2) rest2)) =
        some (PA.v (Json.arr (x :: xs)) rest)
      rw [if_neg hnb]
      rw [show c0 :: (cs0 ++ (renderElemsTail xs ++ (']' :: rest))) =
          renderElems (x :: xs) ++ (']' :: rest) from (hshape2).symm]
      rw [roundEs (x :: xs) hnf g rest (by simp) (by omega)]
      rfl
  | obj m =>
    intro fuel rest hm
    simp only [msize] at hm
    obtain ⟨g, rfl⟩ : ∃ g, fuel = g + 2 := ⟨fuel - 2, by omega⟩
    have hshape : renderL (.obj m) ++ rest = '\x7b' :: (renderMembers m ++ ('\x7d' :: rest)) := by
      simp [renderL]
    rw [hshape]
    show parseP (g + 1) (.objTail (skipWs (renderMembers m ++ ('\x7d' :: rest)))) =
      some (.v (Json.obj m) rest)
    cases m with
    | nil => rfl
    | cons kv kvs =>
      obtain ⟨k, v⟩ := kv
      have hshape2 : renderMembers ((k, v) :: kvs) ++ ('\x7d' :: rest) =
          '"' :: (escapeList k.data ++
            ('"' :: (':' :: (renderL v ++ (renderMembersTail kvs ++ ('\x7d' :: rest)))))) := by
        simp [renderMembers, renderStr]
      rw [hshape2]
      show paMs (parseP g (.membs ('"' :: (escapeList k.data ++
          ('"' :: (':' :: (renderL v ++ (renderMembersTail kvs ++ ('\x7d' :: rest)))))))))
          (fun m2 rest2 => some (PA.v (Json.obj m2) rest2)) =
        some (PA.v (Json.obj ((k, v) :: kvs)) rest)
      rw [show '"' :: (escapeList k.data ++
          ('"' :: (':' :: (renderL v ++ (renderMembersTail kvs ++ ('\x7d' :: rest)))))) =
          renderMembers ((k, v) :: kvs) ++ ('\x7d' :: rest) from (hshape2).symm]
      rw [roundMs ((k, v) :: kvs) hnf g rest (by simp) (by omega)]
      rfl

theorem roundEs (l : List Json) (hnf : numFreeElems l) :
    ∀ (fuel : Nat) (rest : List Char), l ≠ [] → msizeElems l < fuel →
    parseP fuel (.elems (renderElems l ++ (']' :: rest))) = some (.elems l rest) := by
  cases l with
  | nil => intro fuel rest hne _; exact absurd rfl hne
  | cons x xs =>
    intro fuel rest _ hm
    simp only [msizeElems] at hm
    obtain ⟨g, rfl⟩ : ∃ g, fuel = g + 1 := ⟨fuel - 1, by omega⟩
    rw [show renderElems (x :: xs) ++ (']' :: rest) =
      renderL x ++ (renderElemsTail xs ++ (']' :: rest)) from by simp [renderElems]]
    show paV (parseP g (.v (renderL x ++ (renderElemsTail xs ++ (']' :: rest)))))
      (elemsCont g) = some (PA.elems (x :: xs) rest)
    rw [roundV x hnf.1 g _ (by have := msize_pos x; omega)]
    show elemsCont g x (renderElemsTail xs ++ (']' :: rest)) = some (PA.elems (x :: xs) rest)
    obtain ⟨h, rfl⟩ : ∃ h, g = h + 1 := ⟨g - 1, by have := msize_pos x; omega⟩
    cases xs with
    | nil => rfl
    | cons y ys =>
      have hyshape : renderElemsTail (y :: ys) ++ (']' :: rest) =
          ',' :: (renderL y ++ (renderElemsTail ys ++ (']' :: rest))) := by
        simp [renderElemsTail]
      rw [hyshape]
      show paEs (parseP h (.elems (renderL y ++ (renderElemsTail ys ++ (']' :: rest)))))
        (fun l2 rest2 => some (PA.elems (x :: l2) rest2)) = some (PA.elems (x :: y :: ys) rest)
      rw [show renderL y ++ (renderElemsTail ys ++ (']' :: rest)) =
        renderElems (y :: ys) ++ (']' :: rest) from by simp [renderElems]]
      rw [roundEs (y :: ys) hnf.2 h rest (by simp) (by have := msize_pos x; omega)]
      rfl

theorem roundMs (m : List (String × Json)) (hnf : numFreeMembers m) :
    ∀ (fuel : Nat) (rest : List Char), m ≠ [] → msizeMembers m < fuel →
    parseP fuel (.membs (renderMembers m ++ ('\x7d' :: rest))) = some (.membs m rest) := by
  cases m with
  | nil => intro fuel rest hne _; exact absurd rfl hne
  | cons kv kvs =>
    obtain ⟨k, v⟩ := kv
    intro fuel rest _ hb
    simp only [msizeMembers] at hb
    obtain ⟨g, rfl⟩ : ∃ g, fuel = g + 1 := ⟨fuel - 1, by omega⟩
    rw [show renderMembers ((k, v) :: kvs) ++ ('\x7d' :: rest) =
      '"' :: (escapeList k.data ++
        ('"' :: (':' :: (renderL v ++ (renderMembersTail kvs ++ ('\x7d' :: rest)))))) from by
      simp [renderMembers, renderStr]]
    show (parseStrBody ((escapeList k.data ++
        ('"' :: (':' :: (renderL v ++ (renderMembersTail kvs ++ ('\x7d' :: rest)))))).length + 1)
        [] (escapeList k.data ++
        ('"' :: (':' :: (renderL v ++ (renderMembersTail kvs ++ ('\x7d' :: rest))))))).bind
        (fun p => membsKeyCont g p.1 p.2) =
      some (PA.membs ((k, v) :: kvs) rest)
    rw [parseStrBody_renderStr k _ _ (by
      have := length_le_escapeList k.data
      simp only [List.length_append, List.length_cons]
      omega)]
    show membsKeyCont g k
      (':' :: (renderL v ++ (renderMembersTail kvs ++ ('\x7d' :: rest)))) =
      some (PA.membs ((k, v) :: kvs) rest)
    obtain ⟨h, rfl⟩ : ∃ h, g = h + 1 := ⟨g - 1, by have := msize_pos v; omega⟩
    show paV (parseP h (.v (renderL v ++ (renderMembersTail kvs ++ ('\x7d' :: rest)))))
      (membsValCont h k) = some (PA.membs ((k, v) :: kvs) rest)
    rw [roundV v hnf.1 h _ (by have := msize_pos v; omega)]
    show membsValCont h k v (renderMembersTail kvs ++ ('\x7d' :: rest)) =
      some (PA.membs ((k, v) :: kvs) rest)
    obtain ⟨h2, rfl⟩ : ∃ h2, h = h2 + 1 := ⟨h - 1, by have := msize_pos v; omega⟩
    cases kvs with
    | nil => rfl
    | cons kv2 kvs2 =>
      obtain ⟨k2, v2⟩ := kv2
      have hyshape : renderMembersTail ((k2, v2) :: kvs2) ++ ('\x7d' :: rest) =
          ',' :: ('"' :: (escapeList k2.data ++
            ('"' :: (':' :: (renderL v2 ++ (renderMembersTail kvs2 ++ ('\x7d' :: rest))))))) := by
        simp [renderMembersTail, renderStr]
      rw [hyshape]
      show paMs (parseP h2 (.membs ('"' :: (escapeList k2.data ++
          ('"' :: (':' :: (renderL v2 ++ (renderMembersTail kvs2 ++ ('\x7d' :: rest)))))))))
        (fun m2 rest2 => some (PA.membs ((k, v) :: m2) rest2)) =
        some (PA.membs ((k, v) :: (k2, v2) :: kvs2) rest)
      rw [show '"' :: (escapeList k2.data ++
          ('"' :: (':' :: (renderL v2 ++ (renderMembersTail kvs2 ++ ('\x7d' :: rest)))))) =
        renderMembers ((k2, v2) :: kvs2) ++ ('\x7d' :: rest) from by
        simp [renderMembers, renderStr]]
      rw [roundMs ((k2, v2) :: kvs2) hnf.2 h2 rest (by simp) (by
        have := msize_pos v
        omega)]
      rfl

end

mutual

theorem msize_le_render (j : Json) (hnf : numFree j) : msize j ≤ 2 * (renderL j).length := by
  cases j with
  | null => simp [msize, renderL]
  | bool b => cases b <;> simp [msize, renderL]
  | num lit => exact hnf.elim
  | str v =>
    simp only [msize, renderL, renderStr, List.length_append, List.length_cons]
    omega
  | arr l =>
    cases l with
    | nil => simp [msize, msizeElems, renderL, renderElems]
    | cons x xs =>
      have h1 := msize_le_render x hnf.1
      have h2 := msizeElems_le_render xs hnf.2
      simp only [msize, msizeElems, renderL, renderElems, List.length_append, List.length_cons]
      omega
  | obj m =>
    cases m with
    | nil => simp [msize, msizeMembers, renderL, renderMembers]
    | cons kv kvs =>
      obtain ⟨k, v⟩ := kv
      have h1 := msize_le_render v hnf.1
      have h2 := msizeMembers_le_render kvs hnf.2
      simp only [msize, msizeMembers, renderL, renderMembers, List.length_append,
        List.length_cons]
      omega

theorem msizeElems_le_render (l : List Json) (hnf : numFreeElems l) :
    msizeElems l ≤ 2 * (renderElemsTail l).length := by
  cases l with
  | nil => simp [msizeElems, renderElemsTail]
  | cons x xs =>
    have h1 := msize_le_render x hnf.1
    have h2 := msizeElems_le_render xs hnf.2
    simp only [msizeElems, renderElemsTail, List.length_append, List.length_cons]
    omega

theorem msizeMembers_le_render (m : List (String × Json)) (hnf : numFreeMembers m) :
    msizeMembers m ≤ 2 * (renderMembersTail m).length := by
  cases m with
  | nil => simp [msizeMembers, renderMembersTail]
  | cons kv kvs =>
    obtain ⟨k, v⟩ := kv
    have h1 := msize_le_render v hnf.1
    have h2 := msizeMembers_le_render kvs hnf.2
    simp only [msizeMembers, renderMembersTail, List.length_append, List.length_cons]
    omega

end

/-- Round trip at the string level: parsing the Go-marshalled form of any
number-free JSON value gives the value back. -/
theorem Json.parse_render (j : Json) (h : numFree j) : Json.parse (Json.render j) = some j := by
  unfold Json.parse Json.render
  rw [show (String.mk (renderL j)).data = renderL j from rfl]
  have h1 := roundV j h (2 * (renderL j).length + 8) [] (by
    have := msize_le_render j h
    omega)
  rw [show renderL j ++ ([] : List Char) = renderL j from by simp] at h1
  rw [h1]
  rfl

/-! ## Go struct (un)marshalling

`encoding/json` marshals struct fields in declaration order; on decode a
JSON object key is matched against field names (or tags) exactly or ASCII
case-insensitively, later duplicate keys overwrite earlier ones, a missing
key leaves the zero value, JSON `null` has no effect, unknown keys are
ignored and a type mismatch is an error (Go fills the other fields before
reporting it; since `client.go` discards the partially filled struct on any
error, the fail-first `Option` model below is observationally the same). -/

def asciiLower (c : Char) : Char :=
  if 65 ≤ c.toNat ∧ c.toNat ≤ 90 then Char.ofNat (c.toNat + 32) else c

/-- Key-to-field-name matching (`strings.EqualFold` restricted to the ASCII
names this schema uses). -/
def keyMatch (k name : String) : Bool :=
  k.data.map asciiLower == name.data.map asciiLower

/-- The value the Go decoder leaves in a field: the last object entry whose
key matches the field's (tag) name. -/
def lookupM : List (String × Json) → String → Option Json
| [], _ => none
| (k, v) :: tl, name =>
  match lookupM tl name with
  | some r => some r
  | none => if keyMatch k name then some v else none

def jStrField (o : List (String × Json)) (name : String) : Option String :=
  match lookupM o name with
  | none => some ("")
  | some .null => some ("")
  | some (.str s) => some s
  | _ => none

def strListOfJson : List Json → Option (List String)
| [] => some []
| .str s :: tl => (strListOfJson tl).map fun r => s :: r
| _ => none

def jStrListField (o : List (String × Json)) (name : String) : Option (List String) :=
  match lookupM o name with
  | none => some []
  | some .null => some []
  | some (.arr l) => strListOfJson l
  | _ => none

def natOfDigitsAux : Nat → List Char → Option Nat
| acc, [] => some acc
| acc, c :: tl => if isDigit c then natOfDigitsAux (acc * 10 + (c.toNat - 48)) tl else none

def natOfDigits : List Char → Option Nat
| [] => none
| l => natOfDigitsAux 0 l

/-- `strconv.ParseInt`: optional sign then decimal digits only (so a
fraction or exponent in the literal is an unmarshalling error, as in Go). -/
def intOfLit (s : String) : Option Int :=
  match s.data with
  | '-' :: ds => (natOfDigits ds).map fun n => -(n : Int)
  | '+' :: ds => (natOfDigits ds).map fun n => (n : Int)
  | ds => (natOfDigits ds).map fun n => (n : Int)

def digitsToNat (l : List Char) : Nat :=
  l.foldl (fun acc c => acc * 10 + (c.toNat - 48)) 0

def expOfList : List Char → Option Int
| [] => some 0
| 'e' :: '+' :: ds => (natOfDigits ds).map fun n => (n : Int)
| 'e' :: '-' :: ds => (natOfDigits ds).map fun n => -(n : Int)
| 'e' :: ds => (natOfDigits ds).map fun n => (n : Int)
| 'E' :: '+' :: ds => (natOfDigits ds).map fun n => (n : Int)
| 'E' :: '-' :: ds => (natOfDigits ds).map fun n => -(n : Int)
| 'E' :: ds => (natOfDigits ds).map fun n => (n : Int)
| _ => none

/-- The exact rational value of a JSON number literal.  Go parses into an
IEEE `float64`; no claim depends on the rounding, so the exact value stands
in for it. -/
def ratOfLit (s : String) : Option Rat :=
  let signed : Int × List Char :=
    match s.data with
    | '-' :: tl => (-1, tl)
    | tl => (1, tl)
  match spanDigits signed.2 with
  | ([], _) => none
  | (ip, l2) =>
    match l2 with
    | '.' :: l3 =>
      match spanDigits l3 with
      | ([], _) => none
      | (fp, l4) =>
        (expOfList l4).map fun e =>
          (signed.1 * (digitsToNat (ip ++ fp) : Int) : Rat) *
            (10 : Rat) ^ (e - (fp.length : Int))
    | _ =>
      (expOfList l2).map fun e =>
        (signed.1 * (digitsToNat ip : Int) : Rat) * (10 : Rat) ^ e

def jIntField (o : List (String × Json)) (name : String) : Option Int :=
  match lookupM o name with
  | none => some 0
  | some .null => some 0
  | some (.num lit) => intOfLit lit
  | _ => none

def jRatField (o : List (String × Json)) (name : String) : Option Rat :=
  match lookupM o name with
  | none => some 0
  | some .null => some 0
  | some (.num lit) => ratOfLit lit
  | _ => none

def traverseDec (dec : Json → Option α) : List Json → Option (List α)
| [] => some []
| x :: tl => do
  let a ← dec x
  let r ← traverseDec dec tl
  some (a :: r)

def jListFieldWith (dec : Json → Option α) (o : List (String × Json)) (name : String) :
    Option (List α) :=
  match lookupM o name with
  | none => some []
  | some .null => some []
  | some (.arr l) => traverseDec dec l
  | _ => none

/-! ### The schema structs of `client.go` (field names and order as in Go) -/

/-- `type Address struct` of `client.go` (ten string fields). -/
structure Address where
  PrimaryAddressLine : String
  SecondaryAddressLine : String
  County : String
  City : String
  State : String
  PostalCode : String
  Plus4 : String
  Country : String
  Geocode : String
  VerifyAddress : String

/-- `type P2PAddress struct` of `client.go`. -/
structure P2PAddress where
  PrimaryAddressLine : String
  SecondaryAddressLine : String
  County : String
  City : String
  State : String
  PostalCode : String
  Plus4 : String
  Country : String
  Geocode : String
  VerifyAddress : String

/-- `type RequestItem struct` of `client.go`. -/
structure RequestItem where
  LineNumber : String
  InvoiceNumber : String
  CustomerNumber : String
  OrigNumber : String
  TermNumber : String
  BillToNumber : String
  TransDate : String
  BillingPeriodStartDate : String
  BillingPeriodEndDate : String
  Revenue : String
  TaxIncludedCode : String
  Units : String
  UnitType : String
  TaxSitusRule : String
  TransTypeCode : String
  SalesTypeCode : String
  RegulatoryCode : String
  TaxExemptionCodeList : List String
  ExemptReasonCode : String
  UDF : String
  UDF2 : String
  CostCenter : String
  GLAccount : String
  MaterialGroup : String
  BillingDaysInPeriod : String
  OriginCountryCode : String
  DestCountryCode : String
  Parameter1 : String
  Parameter2 : String
  Parameter3 : String
  Parameter4 : String
  Parameter5 : String
  Parameter6 : String
  Parameter7 : String
  Parameter8 : String
  Parameter9 : String
  Parameter10 : String
  CurrencyCode : String
  Seconds : String
  Address : Address
  P2PAddress : P2PAddress

/-- `type Request struct` of `client.go` (the tax request). -/
structure Request where
  ClientNumber : String
  BusinessUnit : String
  ValidationKey : String
  DataYear : String
  DataMonth : String
  CmplDataYear : String
  CmplDataMonth : String
  TotalRevenue : String
  ReturnFileCode : String
  ClientTracking : String
  ResponseType : String
  ResponseGroup : String
  STAN : String
  ItemList : List RequestItem

/-- `type ResponseWrapper struct { D string `json:"d"` }` of `client.go`. -/
structure ResponseWrapper where
  D : String

/-- `type ItemMessage struct` of `client.go`. -/
structure ItemMessage where
  LineNumber : String
  Message : String
  ResponseCode : String

/-- `type Tax struct` of `client.go` (`float64` fields modelled by `Rat`). -/
structure Tax where
  CityName : String
  CountyName : String
  FeeRate : Rat
  Juriscode : String
  PercentTaxable : Rat
  Revenue : String
  RevenueBase : String
  TaxAmount : String
  TaxAuthorityID : String
  TaxAuthorityName : String
  TaxOnTax : String
  TaxRate : Rat
  TaxTypeCode : String
  TaxTypeDesc : String

/-- `type Group struct` of `client.go`. -/
structure Group where
  CustomerNumber : String
  InvoiceNumber : String
  LineNumber : String
  LocationCode : String
  StateCode : String
  TaxList : List Tax

/-- `type Response struct` of `client.go` (`TransId int` modelled by `Int`). -/
structure Response where
  ClientTracking : String
  HeaderMessage : String
  ItemMessages : List ItemMessage
  ResponseCode : String
  STAN : String
  Successful : String
  TransId : Int
  TotalTax : String
  GroupList : List Group

/-- `type CancelRequest struct` of `client.go` (`TransId` is a string here). -/
structure CancelRequest where
  ClientNumber : String
  ClientTracking : String
  TransId : String
  ValidationKey : String

/-- `type CancelResponse struct` of `client.go`. -/
structure CancelResponse where
  Successful : String
  ResponseCode : String
  HeaderMessage : String
  ClientTracking : String
  TransId : Int

/-! ### Marshalling (field order = Go declaration order) -/

def Address.toJson (a : Address) : Json :=
  .obj [(("PrimaryAddressLine"), .str a.PrimaryAddressLine),
    (("SecondaryAddressLine"), .str a.SecondaryAddressLine),
    (("County"), .str a.County),
    (("City"), .str a.City),
    (("State"), .str a.State),
    (("PostalCode"), .str a.PostalCode),
    (("Plus4"), .str a.Plus4),
    (("Country"), .str a.Country),
    (("Geocode"), .str a.Geocode),
    (("VerifyAddress"), .str a.VerifyAddress)]

def P2PAddress.toJson (a : P2PAddress) : Json :=
  .obj [(("PrimaryAddressLine"), .str a.PrimaryAddressLine),
    (("SecondaryAddressLine"), .str a.SecondaryAddressLine),
    (("County"), .str a.County),
    (("City"), .str a.City),
    (("State"), .str a.State),
    (("PostalCode"), .str a.PostalCode),
    (("Plus4"), .str a.Plus4),
    (("Country"), .str a.Country),
    (("Geocode"), .str a.Geocode),
    (("VerifyAddress"), .str a.VerifyAddress)]

def RequestItem.toJson (it : RequestItem) : Json :=
  .obj [(("LineNumber"), .str it.LineNumber),
    (("InvoiceNumber"), .str it.InvoiceNumber),
    (("CustomerNumber"), .str it.CustomerNumber),
    (("OrigNumber"), .str it.OrigNumber),
    (("TermNumber"), .str it.TermNumber),
    (("BillToNumber"), .str it.BillToNumber),
    (("TransDate"), .str it.TransDate),
    (("BillingPeriodStartDate"), .str it.BillingPeriodStartDate),
    (("BillingPeriodEndDate"), .str it.BillingPeriodEndDate),
    (("Revenue"), .str it.Revenue),
    (("TaxIncludedCode"), .str it.TaxIncludedCode),
    (("Units"), .str it.Units),
    (("UnitType"), .str it.UnitType),
    (("TaxSitusRule"), .str it.TaxSitusRule),
    (("TransTypeCode"), .str it.TransTypeCode),
    (("SalesTypeCode"), .str it.SalesTypeCode),
    (("RegulatoryCode"), .str it.RegulatoryCode),
    (("TaxExemptionCodeList"), .arr (it.TaxExemptionCodeList.map Json.str)),
    (("ExemptReasonCode"), .str it.ExemptReasonCode),
    (("UDF"), .str it.UDF),
    (("UDF2"), .str it.UDF2),
    (("CostCenter"), .str it.CostCenter),
    (("GLAccount"), .str it.GLAccount),
    (("MaterialGroup"), .str it.MaterialGroup),
    (("BillingDaysInPeriod"), .str it.BillingDaysInPeriod),
    (("OriginCountryCode"), .str it.OriginCountryCode),
    (("DestCountryCode"), .str it.DestCountryCode),
    (("Parameter1"), .str it.Parameter1),
    (("Parameter2"), .str it.Parameter2),
    (("Parameter3"), .str it.Parameter3),
    (("Parameter4"), .str it.Parameter4),
    (("Parameter5"), .str it.Parameter5),
    (("Parameter6"), .str it.Parameter6),
    (("Parameter7"), .str it.Parameter7),
    (("Parameter8"), .str it.Parameter8),
    (("Parameter9"), .str it.Parameter9),
    (("Parameter10"), .str it.Parameter10),
    (("CurrencyCode"), .str it.CurrencyCode),
    (("Seconds"), .str it.Seconds),
    (("Address"), it.Address.toJson),
    (("P2PAddress"), it.P2PAddress.toJson)]

def Request.toJson (r : Request) : Json :=
  .obj [(("ClientNumber"), .str r.ClientNumber),
    (("BusinessUnit"), .str r.BusinessUnit),
    (("ValidationKey"), .str r.ValidationKey),
    (("DataYear"), .str r.DataYear),
    (("DataMonth"), .str r.DataMonth),
    (("CmplDataYear"), .str r.CmplDataYear),
    (("CmplDataMonth"), .str r.CmplDataMonth),
    (("TotalRevenue"), .str r.TotalRevenue),
    (("ReturnFileCode"), .str r.ReturnFileCode),
    (("ClientTracking"), .str r.ClientTracking),
    (("ResponseType"), .str r.ResponseType),
    (("ResponseGroup"), .str r.ResponseGroup),
    (("STAN"), .str r.STAN),
    (("ItemList"), .arr (r.ItemList.map RequestItem.toJson))]

def CancelRequest.toJson (r : CancelRequest) : Json :=
  .obj [(("ClientNumber"), .str r.ClientNumber),
    (("ClientTracking"), .str r.ClientTracking),
    (("TransId"), .str r.TransId),
    (("ValidationKey"), .str r.ValidationKey)]

/-! ### Unmarshalling (Go decode semantics per field, see above) -/

def zeroAddress : Address := ⟨(""), (""), (""), (""), (""), (""), (""), (""), (""), ("")⟩

def zeroP2PAddress : P2PAddress := ⟨(""), (""), (""), (""), (""), (""), (""), (""), (""), ("")⟩

def Address.ofJsonObj (o : List (String × Json)) : Option Address := do
  let f1 ← jStrField o ("PrimaryAddressLine")
  let f2 ← jStrField o ("SecondaryAddressLine")
  let f3 ← jStrField o ("County")
  let f4 ← jStrField o ("City")
  let f5 ← jStrField o ("State")
  let f6 ← jStrField o ("PostalCode")
  let f7 ← jStrField o ("Plus4")
  let f8 ← jStrField o ("Country")
  let f9 ← jStrField o ("Geocode")
  let f10 ← jStrField o ("VerifyAddress")
  some ⟨f1, f2, f3, f4, f5, f6, f7, f8, f9, f10⟩

def P2PAddress.ofJsonObj (o : List (String × Json)) : Option P2PAddress := do
  let f1 ← jStrField o ("PrimaryAddressLine")
  let f2 ← jStrField o ("SecondaryAddressLine")
  let f3 ← jStrField o ("County")
  let f4 ← jStrField o ("City")
  let f5 ← jStrField o ("State")
  let f6 ← jStrField o ("PostalCode")
  let f7 ← jStrField o ("Plus4")
  let f8 ← jStrField o ("Country")
  let f9 ← jStrField o ("Geocode")
  let f10 ← jStrField o ("VerifyAddress")
  some ⟨f1, f2, f3, f4, f5, f6, f7, f8, f9, f10⟩

def jAddressField (o : List (String × Json)) (name : String) : Option Address :=
  match lookupM o name with
  | none => some zeroAddress
  | some .null => some zeroAddress
  | some (.obj o2) => Address.ofJsonObj o2
  | _ => none

def jP2PAddressField (o : List (String × Json)) (name : String) : Option P2PAddress :=
  match lookupM o name with
  | none => some zeroP2PAddress
  | some .null => some zeroP2PAddress
  | some (.obj o2) => P2PAddress.ofJsonObj o2
  | _ => none

/-- First extraction bundle for `RequestItem` (the item's fields are
decoded in bundles of at most nine, purely to keep elaboration linear; the
`Option` result is the same as one long extraction chain).  The string-list
field comes first so the round-trip proof can expose it. -/
def riBundle1 (o : List (String × Json)) :
    Option (List String × Address × P2PAddress × String × String × String × String) := do
  let tel ← jStrListField o ("TaxExemptionCodeList")
  let addr ← jAddressField o ("Address")
  let p2p ← jP2PAddressField o ("P2PAddress")
  let f1 ← jStrField o ("LineNumber")
  let f2 ← jStrField o ("InvoiceNumber")
  let f3 ← jStrField o ("CustomerNumber")
  let f4 ← jStrField o ("OrigNumber")
  some (tel, addr, p2p, f1, f2, f3, f4)

def riBundle2 (o : List (String × Json)) :
    Option (String × String × String × String × String × String × String × String ×
      String) := do
  let f5 ← jStrField o ("TermNumber")
  let f6 ← jStrField o ("BillToNumber")
  let f7 ← jStrField o ("TransDate")
  let f8 ← jStrField o ("BillingPeriodStartDate")
  let f9 ← jStrField o ("BillingPeriodEndDate")
  let f10 ← jStrField o ("Revenue")
  let f11 ← jStrField o ("TaxIncludedCode")
  let f12 ← jStrField o ("Units")
  let f13 ← jStrField o ("UnitType")
  some (f5, f6, f7, f8, f9, f10, f11, f12, f13)

def riBundle3 (o : List (String × Json)) :
    Option (String × String × String × String × String × String × String × String ×
      String) := do
  let f14 ← jStrField o ("TaxSitusRule")
  let f15 ← jStrField o ("TransTypeCode")
  let f16 ← jStrField o ("SalesTypeCode")
  let f17 ← jStrField o ("RegulatoryCode")
  let f19 ← jStrField o ("ExemptReasonCode")
  let f20 ← jStrField o ("UDF")
  let f21 ← jStrField o ("UDF2")
  let f22 ← jStrField o ("CostCenter")
  let f23 ← jStrField o ("GLAccount")
  some (f14, f15, f16, f17, f19, f20, f21, f22, f23)

def riBundle4 (o : List (String × Json)) :
    Option (String × String × String × String × String × String × String × String ×
      String) := do
  let f24 ← jStrField o ("MaterialGroup")
  let f25 ← jStrField o ("BillingDaysInPeriod")
  let f26 ← jStrField o ("OriginCountryCode")
  let f27 ← jStrField o ("DestCountryCode")
  let p1 ← jStrField o ("Parameter1")
  let p2 ← jStrField o ("Parameter2")
  let p3 ← jStrField o ("Parameter3")
  let p4 ← jStrField o ("Parameter4")
  let p5 ← jStrField o ("Parameter5")
  some (f24, f25, f26, f27, p1, p2, p3, p4, p5)

def riBundle5 (o : List (String × Json)) :
    Option (String × String × String × String × String × String × String) := do
  let p6 ← jStrField o ("Parameter6")
  let p7 ← jStrField o ("Parameter7")
  let p8 ← jStrField o ("Parameter8")
  let p9 ← jStrField o ("Parameter9")
  let p10 ← jStrField o ("Parameter10")
  let f38 ← jStrField o ("CurrencyCode")
  let f39 ← jStrField o ("Seconds")
  some (p6, p7, p8, p9, p10, f38, f39)

/-- Decode a `RequestItem` from an object's members: every field of the Go
struct is extracted with the Go per-field semantics; all must succeed. -/
def RequestItem.ofJsonObj (o : List (String × Json)) : Option RequestItem := do
  let c1 ← riBundle1 o
  let c2 ← riBundle2 o
  let c3 ← riBundle3 o
  let c4 ← riBundle4 o
  let c5 ← riBundle5 o
  some ⟨c1.2.2.2.1, c1.2.2.2.2.1, c1.2.2.2.2.2.1, c1.2.2.2.2.2.2,
    c2.1, c2.2.1, c2.2.2.1, c2.2.2.2.1, c2.2.2.2.2.1, c2.2.2.2.2.2.1, c2.2.2.2.2.2.2.1,
    c2.2.2.2.2.2.2.2.1, c2.2.2.2.2.2.2.2.2,
    c3.1, c3.2.1, c3.2.2.1, c3.2.2.2.1, c1.1, c3.2.2.2.2.1, c3.2.2.2.2.2.1,
    c3.2.2.2.2.2.2.1, c3.2.2.2.2.2.2.2.1, c3.2.2.2.2.2.2.2.2,
    c4.1, c4.2.1, c4.2.2.1, c4.2.2.2.1, c4.2.2.2.2.1, c4.2.2.2.2.2.1, c4.2.2.2.2.2.2.1,
    c4.2.2.2.2.2.2.2.1, c4.2.2.2.2.2.2.2.2,
    c5.1, c5.2.1, c5.2.2.1, c5.2.2.2.1, c5.2.2.2.2.1, c5.2.2.2.2.2.1, c5.2.2.2.2.2.2,
    c1.2.1, c1.2.2.1⟩

def RequestItem.ofJson : Json → Option RequestItem
| .null => some ⟨(""), (""), (""), (""), (""), (""), (""), (""), (""), (""), (""), (""),
    (""), (""), (""), (""), (""), [], (""), (""), (""), (""), (""), (""), (""), (""), (""),
    (""), (""), (""), (""), (""), (""), (""), (""), (""), (""), (""), (""),
    zeroAddress, zeroP2PAddress⟩
| .obj o => RequestItem.ofJsonObj o
| _ => none

/-- First extraction bundle for `Request`; the item list is bound first
(see `RequestItem.ofJsonObj`). -/
def reqBundle1 (o : List (String × Json)) :
    Option (List RequestItem × String × String × String × String × String × String) := do
  let items ← jListFieldWith RequestItem.ofJson o ("ItemList")
  let f1 ← jStrField o ("ClientNumber")
  let f2 ← jStrField o ("BusinessUnit")
  let f3 ← jStrField o ("ValidationKey")
  let f4 ← jStrField o ("DataYear")
  let f5 ← jStrField o ("DataMonth")
  let f6 ← jStrField o ("CmplDataYear")
  some (items, f1, f2, f3, f4, f5, f6)

def reqBundle2 (o : List (String × Json)) :
    Option (String × String × String × String × String × String × String) := do
  let f7 ← jStrField o ("CmplDataMonth")
  let f8 ← jStrField o ("TotalRevenue")
  let f9 ← jStrField o ("ReturnFileCode")
  let f10 ← jStrField o ("ClientTracking")
  let f11 ← jStrField o ("ResponseType")
  let f12 ← jStrField o ("ResponseGroup")
  let f13 ← jStrField o ("STAN")
  some (f7, f8, f9, f10, f11, f12, f13)

/-- Decode a `Request` from an object's members (every Go field, Go
per-field semantics). -/
def Request.ofJsonObj (o : List (String × Json)) : Option Request := do
  let c1 ← reqBundle1 o
  let c2 ← reqBundle2 o
  some ⟨c1.2.1, c1.2.2.1, c1.2.2.2.1, c1.2.2.2.2.1, c1.2.2.2.2.2.1, c1.2.2.2.2.2.2,
    c2.1, c2.2.1, c2.2.2.1, c2.2.2.2.1, c2.2.2.2.2.1, c2.2.2.2.2.2.1, c2.2.2.2.2.2.2,
    c1.1⟩

def Request.ofJson : Json → Option Request
| .null => some ⟨(""), (""), (""), (""), (""), (""), (""), (""), (""), (""), (""), (""),
    (""), []⟩
| .obj o => Request.ofJsonObj o
| _ => none

/-- Decode of the outer wrapper `ResponseWrapper` (single field, tag `d`). -/
def ResponseWrapper.ofJson : Json → Option ResponseWrapper
| .null => some ⟨("")⟩
| .obj o => (jStrField o ("d")).map fun s => ⟨s⟩
| _ => none

def ItemMessage.ofJson : Json → Option ItemMessage
| .null => some ⟨(""), (""), ("")⟩
| .obj o => do
  let f1 ← jStrField o ("LineNumber")
  let f2 ← jStrField o ("Message")
  let f3 ← jStrField o ("ResponseCode")
  some ⟨f1, f2, f3⟩
| _ => none

def taxBundle1 (o : List (String × Json)) :
    Option (String × String × Rat × String × Rat × String × String) := do
  let f1 ← jStrField o ("CityName")
  let f2 ← jStrField o ("CountyName")
  let f3 ← jRatField o ("FeeRate")
  let f4 ← jStrField o ("Juriscode")
  let f5 ← jRatField o ("PercentTaxable")
  let f6 ← jStrField o ("Revenue")
  let f7 ← jStrField o ("RevenueBase")
  some (f1, f2, f3, f4, f5, f6, f7)

def taxBundle2 (o : List (String × Json)) :
    Option (String × String × String × String × Rat × String × String) := do
  let f8 ← jStrField o ("TaxAmount")
  let f9 ← jStrField o ("TaxAuthorityID")
  let f10 ← jStrField o ("TaxAuthorityName")
  let f11 ← jStrField o ("TaxOnTax")
  let f12 ← jRatField o ("TaxRate")
  let f13 ← jStrField o ("TaxTypeCode")
  let f14 ← jStrField o ("TaxTypeDesc")
  some (f8, f9, f10, f11, f12, f13, f14)

def Tax.ofJson : Json → Option Tax
| .null => some ⟨(""), (""), 0, (""), 0, (""), (""), (""), (""), (""), (""), 0, (""), ("")⟩
| .obj o => do
  let c1 ← taxBundle1 o
  let c2 ← taxBundle2 o
  some ⟨c1.1, c1.2.1, c1.2.2.1, c1.2.2.2.1, c1.2.2.2.2.1, c1.2.2.2.2.2.1, c1.2.2.2.2.2.2,
    c2.1, c2.2.1, c2.2.2.1, c2.2.2.2.1, c2.2.2.2.2.1, c2.2.2.2.2.2.1, c2.2.2.2.2.2.2⟩
| _ => none

def Group.ofJson : Json → Option Group
| .null => some ⟨(""), (""), (""), (""), (""), []⟩
| .obj o => do
  let f1 ← jStrField o ("CustomerNumber")
  let f2 ← jStrField o ("InvoiceNumber")
  let f3 ← jStrField o ("LineNumber")
  let f4 ← jStrField o ("LocationCode")
  let f5 ← jStrField o ("StateCode")
  let f6 ← jListFieldWith Tax.ofJson o ("TaxList")
  some ⟨f1, f2, f3, f4, f5, f6⟩
| _ => none

def Response.ofJson : Json → Option Response
| .null => some ⟨(""), (""), [], (""), (""), (""), 0, (""), []⟩
| .obj o => do
  let f1 ← jStrField o ("ClientTracking")
  let f2 ← jStrField o ("HeaderMessage")
  let f3 ← jListFieldWith ItemMessage.ofJson o ("ItemMessages")
  let f4 ← jStrField o ("ResponseCode")
  let f5 ← jStrField o ("STAN")
  let f6 ← jStrField o ("Successful")
  let f7 ← jIntField o ("TransId")
  let f8 ← jStrField o ("TotalTax")
  let f9 ← jListFieldWith Group.ofJson o ("GroupList")
  some ⟨f1, f2, f3, f4, f5, f6, f7, f8, f9⟩
| _ => none

def CancelResponse.ofJson : Json → Option CancelResponse
| .null => some ⟨(""), (""), (""), (""), 0⟩
| .obj o => do
  let f1 ← jStrField o ("Successful")
  let f2 ← jStrField o ("ResponseCode")
  let f3 ← jStrField o ("HeaderMessage")
  let f4 ← jStrField o ("ClientTracking")
  let f5 ← jIntField o ("TransId")
  some ⟨f1, f2, f3, f4, f5⟩
| _ => none

/-! ### `json.Marshal` / `json.Unmarshal` at the string level -/

def goMarshalRequest (r : Request) : String := (Request.toJson r).render

def goMarshalCancelRequest (r : CancelRequest) : String := (CancelRequest.toJson r).render

def goUnmarshalWrapper (s : String) : Option ResponseWrapper :=
  (Json.parse s).bind ResponseWrapper.ofJson

def goUnmarshalResponse (s : String) : Option Response :=
  (Json.parse s).bind Response.ofJson

def goUnmarshalCancelResponse (s : String) : Option CancelResponse :=
  (Json.parse s).bind CancelResponse.ofJson

def goUnmarshalRequest (s : String) : Option Request :=
  (Json.parse s).bind Request.ofJson

/-! ## The HTTP layer of `client.go`

The transport is a function value standing for the `HttpClient` interface
(`Do(req) (*http.Response, error)`).  A response body is its eventual
`ioutil.ReadAll` outcome.  `Send`/`Cancel` additionally report an effect
trace: whether `resp.Body.Close()` ran (the deferred close), whether the
body was read to the end (`ReadAll`), and whether payload decoding
(`parseResponse` / `parseCancelResponse`) was attempted. -/

/-- Result of reading a response body to the end (`ioutil.ReadAll`). -/
inductive BodyRead where
| ok (s : String)
| failed (msg : String)

structure HttpResponse where
  statusCode : Nat
  status : String
  body : BodyRead

/-- Outcome of `HttpClient.Do`. -/
inductive DoResult where
| ok (resp : HttpResponse)
| err (msg : String)

structure HttpRequest where
  method : String
  url : String
  contentType : String
  body : String

/-- The `HttpClient` interface: execute one HTTP request. -/
def HttpClient := HttpRequest → DoResult

/-- `type SuretaxClient struct`: the two URLs and the lazily cached
transport handle (`httpClient HttpClient`, `nil` when not yet built).  The
mutex only matters for the concurrent model further below. -/
structure SuretaxClient where
  Url : String
  CancelUrl : String
  httpClient : Option HttpClient

/-- One error value per `return nil, err` site of `client.go`'s `Send` and
`Cancel` (the Go code distinguishes them by distinct `fmt.Errorf` formats:
`"SureTax returned %s"`, `"Response Wrapper Unmarshal Failed. Error: %v"`,
`"Response Unmarshal Failed. Error: %v"`, or passes the underlying
transport / read error through unchanged). -/
inductive SendError where
| transport (msg : String)
| status (statusLine : String)
| bodyReadFailed (msg : String)
| envelope
| payload

/-- `requestWrapper` marshalled: `{"request": <inner string>}`. -/
def requestWrapper (inner : String) : Json :=
  .obj [(("request"), .str inner)]

/-- `cancelRequestWrapper` marshalled: `{"requestCancel": <inner string>}`. -/
def cancelRequestWrapper (inner : String) : Json :=
  .obj [(("requestCancel"), .str inner)]

/-- `buildRequest`: marshal the request, wrap the resulting string under the
`request` key, serialize the wrapper, POST it with
`Content-Type: application/json` to `c.Url`.  (`json.Marshal` cannot fail
on these string-only structs and `http.NewRequest` is modelled as total.) -/
def buildRequest (c : SuretaxClient) (req : Request) : HttpRequest :=
  ⟨("POST"), c.Url, ("application/json"), (requestWrapper (goMarshalRequest req)).render⟩

/-- `buildCancelRequest`: same, with the `requestCancel` key and
`c.CancelUrl`. -/
def buildCancelRequest (c : SuretaxClient) (req : CancelRequest) : HttpRequest :=
  ⟨("POST"), c.CancelUrl, ("application/json"),
    (cancelRequestWrapper (goMarshalCancelRequest req)).render⟩

/-- `parseResponse`: read the body, unmarshal the outer `ResponseWrapper`
(field `d`), then unmarshal the wrapped string as the `Response`. -/
def parseResponse (resp : HttpResponse) : Except SendError Response :=
  match resp.body with
  | .failed m => .error (.bodyReadFailed m)
  | .ok bodyS =>
    match goUnmarshalWrapper bodyS with
    | none => .error .envelope
    | some w =>
      match goUnmarshalResponse w.D with
      | none => .error .payload
      | some r => .ok r

/-- `parseCancelResponse`: read the body and unmarshal it directly as a
`CancelResponse` — no outer wrapper. -/
def parseCancelResponse (resp : HttpResponse) : Except SendError CancelResponse :=
  match resp.body with
  | .failed m => .error (.bodyReadFailed m)
  | .ok bodyS =>
    match goUnmarshalCancelResponse bodyS with
    | none => .error .payload
    | some r => .ok r

/-- `getClient`: the resolution order of `client.go` — the process-wide
override first, then the instance handle, else construct the default handle
(abstracted as `defaultC`) and cache it.  Returns the resolved handle and
the possibly updated client. -/
def getClient (defaultC : HttpClient) (override : Option HttpClient)
    (c : SuretaxClient) : HttpClient × SuretaxClient :=
  match override with
  | some o => (o, c)
  | none =>
    match c.httpClient with
    | some h => (h, c)
    | none => (defaultC, ⟨c.Url, c.CancelUrl, some defaultC⟩)

/-- The transport handle a call on `c` actually executes through. -/
def resolvedClient (defaultC : HttpClient) (override : Option HttpClient)
    (c : SuretaxClient) : HttpClient :=
  (getClient defaultC override c).1

/-- Effect trace of one `Send`/`Cancel` call. -/
structure SendTrace where
  bodyClosed : Bool
  bodyReadToEnd : Bool
  decodeAttempted : Bool

/-- Result pair of a call, mirroring Go's `(*Response, error)`. -/
structure CallOutcome (α : Type) where
  resp : Option α
  err : Option SendError
  trace : SendTrace

/-- The shared `Send` pipeline after transport resolution: build, execute,
check the status against exactly 200, decode.  On a non-200 status the
deferred `resp.Body.Close()` still runs but the body is never read and no
decode is attempted. -/
def sendCore (cli : HttpClient) (c : SuretaxClient) (req : Request) : CallOutcome Response :=
  match cli (buildRequest c req) with
  | .err m => ⟨none, some (.transport m), ⟨false, false, false⟩⟩
  | .ok resp =>
    if resp.statusCode ≠ 200 then
      ⟨none, some (.status (("SureTax returned ") ++ resp.status)), ⟨true, false, false⟩⟩
    else
      match parseResponse resp with
      | .error e => ⟨none, some e, ⟨true, true, true⟩⟩
      | .ok res => ⟨some res, none, ⟨true, true, true⟩⟩

def cancelCore (cli : HttpClient) (c : SuretaxClient) (req : CancelRequest) :
    CallOutcome CancelResponse :=
  match cli (buildCancelRequest c req) with
  | .err m => ⟨none, some (.transport m), ⟨false, false, false⟩⟩
  | .ok resp =>
    if resp.statusCode ≠ 200 then
      ⟨none, some (.status (("SureTax returned ") ++ resp.status)), ⟨true, false, false⟩⟩
    else
      match parseCancelResponse resp with
      | .error e => ⟨none, some e, ⟨true, true, true⟩⟩
      | .ok res => ⟨some res, none, ⟨true, true, true⟩⟩

/-- `func (c *SuretaxClient) Send` of `client.go`. -/
def Send (defaultC : HttpClient) (override : Option HttpClient) (c : SuretaxClient)
    (req : Request) : CallOutcome Response × SuretaxClient :=
  match getClient defaultC override c with
  | (cli, c2) => (sendCore cli c2 req, c2)

/-- `func (c *SuretaxClient) Cancel` of `client.go`. -/
def Cancel (defaultC : HttpClient) (override : Option HttpClient) (c : SuretaxClient)
    (req : CancelRequest) : CallOutcome CancelResponse × SuretaxClient :=
  match getClient defaultC override c with
  | (cli, c2) => (cancelCore cli c2 req, c2)

/-! ## Specification-side decoders (for refinement comparisons)

These two follow the spec's words, written over the primitive JSON
operations rather than the struct machinery of the implementation, so that
comparing them with `parseResponse` / `buildRequest` is meaningful. -/

/-- The spec's reading of the tax-call decode: parse the body as an outer
object whose `d` field holds a JSON string, then parse that string as the
typed response. -/
def specTaxDecode (body : String) : Option Response :=
  match Json.parse body with
  | some (.obj o) =>
    match lookupM o ("d") with
    | some (.str s) => (Json.parse s).bind Response.ofJson
    | _ => none
  | _ => none

/-- The spec's reading of the cancel-call decode: parse the body directly
as the typed cancel response, no outer wrapper. -/
def specCancelDecode (body : String) : Option CancelResponse :=
  (Json.parse body).bind CancelResponse.ofJson

/-- Modelled from the spec: the repository contains no decoder for the send
format (`buildRequest` is encode-only), so the "decode-from-send-format
reader" of §8 is modelled from §4.2/§6: parse the body as an outer object
whose `request` field holds a JSON string and parse that string as the
typed request. -/
def decodeSendFormat (body : String) : Option Request :=
  match Json.parse body with
  | some (.obj o) =>
    match lookupM o ("request") with
    | some (.str s) => (Json.parse s).bind Request.ofJson
    | _ => none
  | _ => none

/-! ## Round-trip lemmas for the request schema -/

theorem strListOfJson_map (l : List String) : strListOfJson (l.map Json.str) = some l := by
  induction l with
  | nil => rfl
  | cons s tl ih => simp [strListOfJson, ih]

theorem requestItem_roundtrip (it : RequestItem) :
    RequestItem.ofJson (RequestItem.toJson it) = some it := by
  show Option.bind (Option.bind (strListOfJson (it.TaxExemptionCodeList.map Json.str)) _) _ =
    some it
  rw [strListOfJson_map]
  rfl

theorem traverseDec_items (l : List RequestItem) :
    traverseDec RequestItem.ofJson (l.map RequestItem.toJson) = some l := by
  induction l with
  | nil => rfl
  | cons it tl ih => simp [traverseDec, requestItem_roundtrip, ih]

theorem request_roundtrip (r : Request) : Request.ofJson (Request.toJson r) = some r := by
  show Option.bind (Option.bind
    (traverseDec RequestItem.ofJson (r.ItemList.map RequestItem.toJson)) _) _ = some r
  rw [traverseDec_items]
  rfl

theorem numFreeElems_map_str (l : List String) : numFreeElems (l.map Json.str) := by
  induction l with
  | nil => simp [numFreeElems]
  | cons s tl ih => simp [numFreeElems, numFree, ih]

theorem address_numFree (a : Address) : numFree a.toJson := by
  simp [Address.toJson, numFree, numFreeMembers]

theorem p2paddress_numFree (a : P2PAddress) : numFree a.toJson := by
  simp [P2PAddress.toJson, numFree, numFreeMembers]

theorem requestItem_numFree (it : RequestItem) : numFree (RequestItem.toJson it) := by
  simp only [RequestItem.toJson, numFree, numFreeMembers]
  refine ⟨trivial, trivial, trivial, trivial, trivial, trivial, trivial, trivial, trivial,
    trivial, trivial, trivial, trivial, trivial, trivial, trivial, trivial,
    numFreeElems_map_str it.TaxExemptionCodeList, trivial, trivial, trivial, trivial,
    trivial, trivial, trivial, trivial, trivial, trivial, trivial, trivial, trivial,
    trivial, trivial, trivial, trivial, trivial, trivial, trivial, trivial,
    address_numFree it.Address, p2paddress_numFree it.P2PAddress, trivial⟩

theorem numFreeElems_map_item (l : List RequestItem) :
    numFreeElems (l.map RequestItem.toJson) := by
  induction l with
  | nil => simp [numFreeElems]
  | cons it tl ih => simp [numFreeElems, requestItem_numFree, ih]

theorem request_numFree (r : Request) : numFree (Request.toJson r) := by
  simp [Request.toJson, numFree, numFreeMembers, numFreeElems_map_item]

theorem wrapper_numFree (s : String) : numFree (requestWrapper s) := by
  simp [requestWrapper, numFree, numFreeMembers]

theorem cancelWrapper_numFree (s : String) : numFree (cancelRequestWrapper s) := by
  simp [cancelRequestWrapper, numFree, numFreeMembers]

/-! ## `getClient` under concurrency

An interleaving (sequentially consistent) model of `n` goroutines each
executing `getClient` on one shared fresh `SuretaxClient`, with no
process-wide override set.  Default handles are numbered by construction
order; `cached` is `c.httpClient`, `lockBy` the holder of `c.mu`.  Each
transition is one line of `getClient`: the unlocked nil-check, the lock
acquisition, the locked re-check with construct-if-still-absent, and the
return-and-unlock. -/

/-- Program counter of one goroutine inside `getClient`. -/
inductive Pc where
| checkFast
| waitLock
| critical
| release
| finished (h : Nat)
deriving DecidableEq

structure DclState (n : Nat) where
  cached : Option Nat
  lockBy : Option (Fin n)
  constructed : Nat
  pcs : Fin n → Pc

def updPc {n : Nat} (pcs : Fin n → Pc) (i : Fin n) (v : Pc) : Fin n → Pc :=
  fun j => if j = i then v else pcs j

inductive DclStep (n : Nat) : DclState n → DclState n → Prop where
| fastHit (s : DclState n) (i : Fin n) (h : Nat) :
    s.pcs i = .checkFast → s.cached = some h →
    DclStep n s ⟨s.cached, s.lockBy, s.constructed, updPc s.pcs i (.finished h)⟩
| fastMiss (s : DclState n) (i : Fin n) :
    s.pcs i = .checkFast → s.cached = none →
    DclStep n s ⟨s.cached, s.lockBy, s.constructed, updPc s.pcs i .waitLock⟩
| acquire (s : DclState n) (i : Fin n) :
    s.pcs i = .waitLock → s.lockBy = none →
    DclStep n s ⟨s.cached, some i, s.constructed, updPc s.pcs i .critical⟩
| construct (s : DclState n) (i : Fin n) :
    s.pcs i = .critical → s.cached = none →
    DclStep n s ⟨some s.constructed, s.lockBy, s.constructed + 1, updPc s.pcs i .release⟩
| skipConstruct (s : DclState n) (i : Fin n) (h : Nat) :
    s.pcs i = .critical → s.cached = some h →
    DclStep n s ⟨s.cached, s.lockBy, s.constructed, updPc s.pcs i .release⟩
| unlockReturn (s : DclState n) (i : Fin n) (h : Nat) :
    s.pcs i = .release → s.cached = some h →
    DclStep n s ⟨s.cached, none, s.constructed, updPc s.pcs i (.finished h)⟩

/-- A freshly constructed client: nothing cached, mutex free, every
goroutine about to call `getClient`. -/
def DclInit (n : Nat) : DclState n := ⟨none, none, 0, fun _ => .checkFast⟩

def DclReachable (n : Nat) (s : DclState n) : Prop :=
  Relation.ReflTransGen (DclStep n) (DclInit n) s

/-- The inductive invariant of the double-checked locking. -/
def DclInv (n : Nat) (s : DclState n) : Prop :=
  s.constructed ≤ 1 ∧
  (s.cached = none ↔ s.constructed = 0) ∧
  (∀ h, s.cached = some h → h = 0) ∧
  (∀ i, s.pcs i = .critical → s.lockBy = some i) ∧
  (∀ i, s.pcs i = .release → s.lockBy = some i ∧ s.cached ≠ none) ∧
  (∀ i h, s.pcs i = .finished h → s.cached = some h)

theorem dclInv_init (n : Nat) : DclInv n (DclInit n) := by
  refine ⟨by simp [DclInit], by simp [DclInit], ?_, ?_, ?_, ?_⟩ <;>
    intro i <;> simp [DclInit]

theorem dclInv_step (n : Nat) (s s' : DclState n) (hinv : DclInv n s)
    (hstep : DclStep n s s') : DclInv n s' := by
  obtain ⟨h1, h2, h3, h4, h5, h6⟩ := hinv
  cases hstep with
  | fastHit i h hpc hc =>
    refine ⟨h1, h2, h3, ?_, ?_, ?_⟩
    · intro j hj
      simp only [updPc] at hj
      by_cases hji : j = i
      · rw [if_pos hji] at hj; exact absurd hj (by simp)
      · rw [if_neg hji] at hj; exact h4 j hj
    · intro j hj
      simp only [updPc] at hj
      by_cases hji : j = i
      · rw [if_pos hji] at hj; exact absurd hj (by simp)
      · rw [if_neg hji] at hj; exact h5 j hj
    · intro j h0 hj
      simp only [updPc] at hj
      by_cases hji : j = i
      · rw [if_pos hji] at hj
        cases hj
        exact hc
      · rw [if_neg hji] at hj; exact h6 j h0 hj
  | fastMiss i hpc hc =>
    refine ⟨h1, h2, h3, ?_, ?_, ?_⟩
    · intro j hj
      simp only [updPc] at hj
      by_cases hji : j = i
      · rw [if_pos hji] at hj; exact absurd hj (by simp)
      · rw [if_neg hji] at hj; exact h4 j hj
    · intro j hj
      simp only [updPc] at hj
      by_cases hji : j = i
      · rw [if_pos hji] at hj; exact absurd hj (by simp)
      · rw [if_neg hji] at hj; exact h5 j hj
    · intro j h0 hj
      simp only [updPc] at hj
      by_cases hji : j = i
      · rw [if_pos hji] at hj; exact absurd hj (by simp)
      · rw [if_neg hji] at hj; exact h6 j h0 hj
  | acquire i hpc hl =>
    refine ⟨h1, h2, h3, ?_, ?_, ?_⟩
    · intro j hj
      simp only [updPc] at hj
      by_cases hji : j = i
      · subst hji; rfl
      · rw [if_neg hji] at hj
        exact absurd (h4 j hj) (by rw [hl]; simp)
    · intro j hj
      simp only [updPc] at hj
      by_cases hji : j = i
      · rw [if_pos hji] at hj; exact absurd hj (by simp)
      · rw [if_neg hji] at hj
        exact absurd (h5 j hj).1 (by rw [hl]; simp)
    · intro j h0 hj
      simp only [updPc] at hj
      by_cases hji : j = i
      · rw [if_pos hji] at hj; exact absurd hj (by simp)
      · rw [if_neg hji] at hj; exact h6 j h0 hj
  | construct i hpc hc =>
    have hc0 : s.constructed = 0 := h2.mp hc
    have hlock := h4 i hpc
    refine ⟨?_, ?_, ?_, ?_, ?_, ?_⟩
    · show s.constructed + 1 ≤ 1
      omega
    · show some s.constructed = none ↔ s.constructed + 1 = 0
      constructor
      · intro hcon; exact absurd hcon (by simp)
      · intro hcon; omega
    · intro h0 hh
      show h0 = 0
      have : s.constructed = h0 := by
        have := hh
        simp only [Option.some.injEq] at this
        exact this
      omega
    · intro j hj
      simp only [updPc] at hj
      by_cases hji : j = i
      · rw [if_pos hji] at hj; exact absurd hj (by simp)
      · rw [if_neg hji] at hj
        have hj2 := h4 j hj
        rw [hlock] at hj2
        simp only [Option.some.injEq] at hj2
        exact absurd hj2.symm hji
    · intro j hj
      simp only [updPc] at hj
      by_cases hji : j = i
      · subst hji
        exact ⟨hlock, by simp⟩
      · rw [if_neg hji] at hj
        have hj2 := (h5 j hj).1
        rw [hlock] at hj2
        simp only [Option.some.injEq] at hj2
        exact absurd hj2.symm hji
    · intro j h0 hj
      simp only [updPc] at hj
      by_cases hji : j = i
      · rw [if_pos hji] at hj; exact absurd hj (by simp)
      · rw [if_neg hji] at hj
        exact absurd (h6 j h0 hj) (by rw [hc]; simp)
  | skipConstruct i h hpc hc =>
    have hlock := h4 i hpc
    refine ⟨h1, h2, h3, ?_, ?_, ?_⟩
    · intro j hj
      simp only [updPc] at hj
      by_cases hji : j = i
      · rw [if_pos hji] at hj; exact absurd hj (by simp)
      · rw [if_neg hji] at hj; exact h4 j hj
    · intro j hj
      simp only [updPc] at hj
      by_cases hji : j = i
      · subst hji
        exact ⟨hlock, by rw [hc]; simp⟩
      · rw [if_neg hji] at hj; exact h5 j hj
    · intro j h0 hj
      simp only [updPc] at hj
      by_cases hji : j = i
      · rw [if_pos hji] at hj; exact absurd hj (by simp)
      · rw [if_neg hji] at hj; exact h6 j h0 hj
  | unlockReturn i h hpc hc =>
    have hlock := (h5 i hpc).1
    refine ⟨h1, h2, h3, ?_, ?_, ?_⟩
    · intro j hj
      simp only [updPc] at hj
      by_cases hji : j = i
      · rw [if_pos hji] at hj; exact absurd hj (by simp)
      · rw [if_neg hji] at hj
        have hj2 := h4 j hj
        rw [hlock] at hj2
        simp only [Option.some.injEq] at hj2
        exact absurd hj2.symm hji
    · intro j hj
      simp only [updPc] at hj
      by_cases hji : j = i
      · rw [if_pos hji] at hj; exact absurd hj (by simp)
      · rw [if_neg hji] at hj
        have hj2 := (h5 j hj).1
        rw [hlock] at hj2
        simp only [Option.some.injEq] at hj2
        exact absurd hj2.symm hji
    · intro j h0 hj
      simp only [updPc] at hj
      by_cases hji : j = i
      · rw [if_pos hji] at hj
        cases hj
        exact hc
      · rw [if_neg hji] at hj; exact h6 j h0 hj

theorem dclInv_reachable (n : Nat) (s : DclState n) (hr : DclReachable n s) :
    DclInv n s := by
  induction hr with
  | refl => exact dclInv_init n
  | tail _ hstep ih => exact dclInv_step n _ _ ih hstep

theorem dcl_cached_mono (n : Nat) (s s' : DclState n) (hstep : DclStep n s s')
    (h : Nat) (hc : s.cached = some h) : s'.cached = some h := by
  cases hstep with
  | fastHit i h2 hpc hc2 => exact hc
  | fastMiss i hpc hc2 => exact hc
  | acquire i hpc hl => exact hc
  | construct i hpc hc2 => exact absurd hc (by rw [hc2]; simp)
  | skipConstruct i h2 hpc hc2 => exact hc
  | unlockReturn i h2 hpc hc2 => exact hc

/-- The one-thread run of `getClient` on a fresh client: unlocked miss,
acquire, construct, return-and-unlock. -/
def dclS1 : DclState 1 := ⟨none, none, 0, updPc (fun _ => Pc.checkFast) 0 Pc.waitLock⟩

def dclS2 : DclState 1 := ⟨dclS1.cached, some 0, dclS1.constructed, updPc dclS1.pcs 0 Pc.critical⟩

def dclS3 : DclState 1 :=
  ⟨some dclS2.constructed, dclS2.lockBy, dclS2.constructed + 1, updPc dclS2.pcs 0 Pc.release⟩

def dclS4 : DclState 1 := ⟨dclS3.cached, none, dclS3.constructed, updPc dclS3.pcs 0 (Pc.finished 0)⟩

/-! ## Concrete values for evaluating the model -/

def dummyClient : HttpClient := fun _ => DoResult.err ("unused")

def handleB : HttpClient := fun _ => DoResult.err ("handleB")

def clientA : SuretaxClient := ⟨(""), (""), none⟩

def clientB : SuretaxClient := ⟨(""), (""), some handleB⟩

def emptyRequest : Request := ⟨(""), (""), (""), (""), (""), (""), (""), (""), (""), (""),
  (""), (""), (""), []⟩

def emptyCancelRequest : CancelRequest := ⟨(""), (""), (""), ("")⟩

/-- A transport stub answering HTTP 500 with a readable body. -/
def cli500 : HttpClient :=
  fun _ => DoResult.ok ⟨500, ("500 Internal Server Error"), BodyRead.ok ("oops")⟩

/-- A transport stub answering 200 with a body that is not JSON at all. -/
def cliEnvelope : HttpClient :=
  fun _ => DoResult.ok ⟨200, ("200 OK"), BodyRead.ok ("notjson")⟩

/-- A transport stub answering 200 with a wrapped but invalid inner payload
(the spec's literal scenario for the payload error). -/
def cliPayload : HttpClient :=
  fun _ => DoResult.ok ⟨200, ("200 OK"), BodyRead.ok ("\x7b\"d\":\"x\"\x7d")⟩

/-- A transport stub answering 200 with the body `{}`. -/
def cliEmptyObj : HttpClient :=
  fun _ => DoResult.ok ⟨200, ("200 OK"), BodyRead.ok ("\x7b\x7d")⟩

/-! ## Helper lemmas about `Send`/`Cancel` -/

theorem send_eq_core (dC : HttpClient) (ov : Option HttpClient) (c : SuretaxClient)
    (req : Request) : (Send dC ov c req).1 = sendCore (resolvedClient dC ov c) c req := by
  cases ov with
  | some f => rfl
  | none =>
    cases hc : c.httpClient with
    | some h => simp [Send, getClient, resolvedClient, hc]
    | none =>
      simp only [Send, getClient, resolvedClient, hc]
      rfl

theorem cancel_eq_core (dC : HttpClient) (ov : Option HttpClient) (c : SuretaxClient)
    (creq : CancelRequest) :
    (Cancel dC ov c creq).1 = cancelCore (resolvedClient dC ov c) c creq := by
  cases ov with
  | some f => rfl
  | none =>
    cases hc : c.httpClient with
    | some h => simp [Cancel, getClient, resolvedClient, hc]
    | none =>
      simp only [Cancel, getClient, resolvedClient, hc]
      rfl

/-- The spec-side tax decode coincides with unwrapping through
`ResponseWrapper` followed by the inner unmarshal. -/
theorem specTaxDecode_eq (body : String) :
    specTaxDecode body = (goUnmarshalWrapper body).bind fun w => goUnmarshalResponse w.D := by
  unfold specTaxDecode goUnmarshalWrapper
  cases hp : Json.parse body with
  | none => rfl
  | some j =>
    cases j with
    | null =>
      show none = goUnmarshalResponse ("")
      rfl
    | bool b => rfl
    | num lit => rfl
    | str v => rfl
    | arr l => rfl
    | obj o =>
      show (match lookupM o ("d") with
        | some (.str s) => (Json.parse s).bind Response.ofJson
        | _ => none) =
        ((jStrField o ("d")).map fun s => ResponseWrapper.mk s).bind
          fun w => goUnmarshalResponse w.D
      cases hl : lookupM o ("d") with
      | none =>
        simp only [jStrField, hl]
        rfl
      | some v =>
        cases v with
        | null =>
          simp only [jStrField, hl]
          rfl
        | bool b => simp [jStrField, hl]
        | num lit => simp [jStrField, hl]
        | str s => simp [jStrField, hl, goUnmarshalResponse]
        | arr l => simp [jStrField, hl]
        | obj o2 => simp [jStrField, hl]

/-! ## The claims -/

/-- C1: for every `Request` (resp. `CancelRequest`), the HTTP body built for
sending parses as a one-field JSON object whose field is named exactly
`request` (resp. `requestCancel`) and whose value is the `json.Marshal`
serialization of the inner payload embedded as a JSON string — not as a
nested object. -/
theorem C1_wrapped_body (c : SuretaxClient) (req : Request) (creq : CancelRequest) :
    Json.parse ((buildRequest c req).body) =
      some (Json.obj [(("request"), Json.str (goMarshalRequest req))]) ∧
    Json.parse ((buildCancelRequest c creq).body) =
      some (Json.obj [(("requestCancel"), Json.str (goMarshalCancelRequest creq))]) :=
  ⟨Json.parse_render (requestWrapper (goMarshalRequest req))
      (wrapper_numFree (goMarshalRequest req)),
    Json.parse_render (cancelRequestWrapper (goMarshalCancelRequest creq))
      (cancelWrapper_numFree (goMarshalCancelRequest creq))⟩

/-- C2: on a readable body, `parseResponse` succeeds exactly when the body
parses as an outer object whose `d` field holds a JSON string that itself
parses as the typed `Response` (the two-stage decode), while
`parseCancelResponse` succeeds exactly when the body parses directly as a
`CancelResponse` — no outer wrapper. -/
theorem C2_decode_shapes (sc : Nat) (st body : String) (r : Response)
    (cr : CancelResponse) :
    (parseResponse ⟨sc, st, .ok body⟩ = .ok r ↔ specTaxDecode body = some r) ∧
    (parseCancelResponse ⟨sc, st, .ok body⟩ = .ok cr ↔ specCancelDecode body = some cr) := by
  constructor
  · rw [specTaxDecode_eq]
    show (match goUnmarshalWrapper body with
      | none => Except.error SendError.envelope
      | some w =>
        match goUnmarshalResponse w.D with
        | none => Except.error SendError.payload
        | some r2 => Except.ok r2) = Except.ok r ↔ _
    cases hw : goUnmarshalWrapper body with
    | none => simp
    | some w =>
      cases hi : goUnmarshalResponse w.D with
      | none => simp [hi]
      | some r2 => simp [hi]
  · have he : specCancelDecode body = goUnmarshalCancelResponse body := rfl
    show (match goUnmarshalCancelResponse body with
      | none => Except.error SendError.payload
      | some r2 => Except.ok r2) = Except.ok cr ↔ specCancelDecode body = some cr
    rw [he]
    cases hcc : goUnmarshalCancelResponse body with
    | none => simp
    | some r2 => simp

/-- C3: whenever the transport returns a response whose status code is not
exactly 200, `Send` returns the status error carrying the status line and
the decode is never attempted (nothing of the body is consumed); and
conversely a decode is attempted only when the status code was exactly
200. -/
theorem C3_status_guard (dC : HttpClient) (ov : Option HttpClient) (c : SuretaxClient)
    (req : Request) :
    (∀ resp, resolvedClient dC ov c (buildRequest c req) = DoResult.ok resp →
      resp.statusCode ≠ 200 →
      (Send dC ov c req).1 =
        ⟨none, some (SendError.status (("SureTax returned ") ++ resp.status)),
          ⟨true, false, false⟩⟩) ∧
    ((Send dC ov c req).1.trace.decodeAttempted = true →
      ∃ resp, resolvedClient dC ov c (buildRequest c req) = DoResult.ok resp ∧
        resp.statusCode = 200) := by
  constructor
  · intro resp hdo hst
    rw [send_eq_core]
    simp only [sendCore, hdo]
    rw [if_pos hst]
  · intro hdec
    rw [send_eq_core] at hdec
    cases hcli : resolvedClient dC ov c (buildRequest c req) with
    | err m => simp [sendCore, hcli] at hdec
    | ok resp =>
      by_cases h200 : resp.statusCode = 200
      · exact ⟨resp, rfl, h200⟩
      · simp [sendCore, hcli, h200] at hdec

/-- C3 at a concrete 500 stub: `Send` returns exactly the status error and
an untouched-body trace. -/
theorem C3_status_guard_witness :
    (Send dummyClient (some cli500) clientA emptyRequest).1 =
      ⟨none,
        some (SendError.status (("SureTax returned ") ++ ("500 Internal Server Error"))),
        ⟨true, false, false⟩⟩ :=
  (C3_status_guard dummyClient (some cli500) clientA emptyRequest).1
    ⟨500, ("500 Internal Server Error"), BodyRead.ok ("oops")⟩ rfl (by decide)

/-- C4: on a 200 response with a readable body, `Send` returns the envelope
error when the body does not unmarshal as the outer `ResponseWrapper`, and
the payload error when the wrapper unmarshals but its `d` string does not
unmarshal as the typed `Response`; and the five error constructors
(transport, status, body-read, envelope, payload) are pairwise distinct, so
the two decode failures are distinguishable from each other and from
transport and status errors. -/
theorem C4_decode_error_kinds (dC : HttpClient) (ov : Option HttpClient)
    (c : SuretaxClient) (req : Request) (resp : HttpResponse) (body : String)
    (hdo : resolvedClient dC ov c (buildRequest c req) = DoResult.ok resp)
    (hst : resp.statusCode = 200) (hb : resp.body = BodyRead.ok body) :
    (goUnmarshalWrapper body = none →
      (Send dC ov c req).1 = ⟨none, some SendError.envelope, ⟨true, true, true⟩⟩) ∧
    (∀ w, goUnmarshalWrapper body = some w → goUnmarshalResponse w.D = none →
      (Send dC ov c req).1 = ⟨none, some SendError.payload, ⟨true, true, true⟩⟩) ∧
    SendError.envelope ≠ SendError.payload ∧
    (∀ m, SendError.envelope ≠ SendError.transport m) ∧
    (∀ m, SendError.payload ≠ SendError.transport m) ∧
    (∀ sl, SendError.envelope ≠ SendError.status sl) ∧
    (∀ sl, SendError.payload ≠ SendError.status sl) := by
  refine ⟨?_, ?_, by simp, by simp, by simp, by simp, by simp⟩
  · intro hw
    rw [send_eq_core]
    simp only [sendCore, hdo]
    rw [if_neg (show ¬ resp.statusCode ≠ 200 by simp [hst])]
    simp only [parseResponse, hb, hw]
  · intro w hw hwd
    rw [send_eq_core]
    simp only [sendCore, hdo]
    rw [if_neg (show ¬ resp.statusCode ≠ 200 by simp [hst])]
    simp only [parseResponse, hb, hw, hwd]

/-- C4 at concrete transports: the not-JSON body yields the envelope error,
the wrapped-but-invalid-inner body yields the payload error. -/
theorem C4_decode_error_kinds_witness :
    (Send dummyClient (some cliEnvelope) clientA emptyRequest).1 =
      ⟨none, some SendError.envelope, ⟨true, true, true⟩⟩ ∧
    (Send dummyClient (some cliPayload) clientA emptyRequest).1 =
      ⟨none, some SendError.payload, ⟨true, true, true⟩⟩ :=
  ⟨(C4_decode_error_kinds dummyClient (some cliEnvelope) clientA emptyRequest
      ⟨200, ("200 OK"), BodyRead.ok ("notjson")⟩ ("notjson") rfl rfl rfl).1 rfl,
    (C4_decode_error_kinds dummyClient (some cliPayload) clientA emptyRequest
      ⟨200, ("200 OK"), BodyRead.ok ("\x7b\"d\":\"x\"\x7d")⟩ ("\x7b\"d\":\"x\"\x7d")
      rfl rfl rfl).2.1 ⟨("x")⟩ rfl rfl⟩

/-- C5: encoding any `Request` — empty optional strings and an empty
`TaxExemptionCodeList` included — with `buildRequest` and decoding the
produced outer-wrapped body with the decode-from-send-format reader yields
the original `Request`, field for field. -/
theorem C5_send_roundtrip (c : SuretaxClient) (req : Request) :
    decodeSendFormat ((buildRequest c req).body) = some req := by
  show decodeSendFormat ((requestWrapper (goMarshalRequest req)).render) = some req
  unfold decodeSendFormat
  rw [Json.parse_render (requestWrapper (goMarshalRequest req))
    (wrapper_numFree (goMarshalRequest req))]
  show (Json.parse (goMarshalRequest req)).bind Request.ofJson = some req
  simp only [goMarshalRequest]
  rw [Json.parse_render (Request.toJson req) (request_numFree req)]
  simpa using request_roundtrip req

/-- C6: the handle a call executes through follows the resolution order of
`getClient` — the process-wide override first, then the instance-level
cached handle, then the lazily constructed default (which is then cached on
the instance) — so a set override is the transport actually used by `Send`
and `Cancel` on every client instance. -/
theorem C6_transport_resolution (dC f h2 : HttpClient) (c : SuretaxClient) (req : Request)
    (creq : CancelRequest) :
    resolvedClient dC (some f) c = f ∧
    (c.httpClient = some h2 → resolvedClient dC none c = h2) ∧
    (c.httpClient = none → resolvedClient dC none c = dC ∧
      (getClient dC none c).2.httpClient = some dC) ∧
    (Send dC (some f) c req).1 = sendCore f c req ∧
    (Cancel dC (some f) c creq).1 = cancelCore f c creq := by
  refine ⟨rfl, ?_, ?_, rfl, rfl⟩
  · intro hc
    simp [resolvedClient, getClient, hc]
  · intro hc
    simp [resolvedClient, getClient, hc]

/-- C6 at concrete clients: an instance with a cached handle resolves to it,
a fresh instance resolves to the default handle. -/
theorem C6_transport_resolution_witness :
    resolvedClient dummyClient none clientB = handleB ∧
    resolvedClient dummyClient none clientA = dummyClient :=
  ⟨(C6_transport_resolution dummyClient dummyClient handleB clientB emptyRequest
      emptyCancelRequest).2.1 rfl,
    ((C6_transport_resolution dummyClient dummyClient dummyClient clientA emptyRequest
      emptyCancelRequest).2.2.1 rfl).1⟩

/-- C7: in every reachable state of the concurrent double-checked-locking
model of `getClient` (any number of goroutines, no override), at most one
default handle is ever constructed; every goroutine that finished observed
exactly the cached non-null handle, at which point exactly one construction
has happened; and once cached the handle is never replaced by any further
step. -/
theorem C7_dcl_once (n : Nat) (s : DclState n) (hr : DclReachable n s) :
    s.constructed ≤ 1 ∧
    (∀ i h, s.pcs i = Pc.finished h → s.cached = some h ∧ s.constructed = 1) ∧
    (∀ s', DclStep n s s' → ∀ h, s.cached = some h → s'.cached = some h) := by
  obtain ⟨h1, h2, h3, h4, h5, h6⟩ := dclInv_reachable n s hr
  refine ⟨h1, ?_, fun s' hstep h hc => dcl_cached_mono n s s' hstep h hc⟩
  intro i h hf
  have hc := h6 i h hf
  refine ⟨hc, ?_⟩
  have hne : s.cached ≠ none := by rw [hc]; simp
  have h0 : ¬ s.constructed = 0 := fun hh => hne (h2.mpr hh)
  omega

/-- C7 at a concrete run: one goroutine on a fresh client misses the fast
check, locks, constructs and returns; in the resulting state the handle is
cached, exactly one construction happened and the goroutine finished with
that handle. -/
theorem C7_dcl_once_witness :
    dclS4.cached = some 0 ∧ dclS4.constructed = 1 ∧ dclS4.pcs 0 = Pc.finished 0 := by
  have t1 : DclStep 1 (DclInit 1) dclS1 := DclStep.fastMiss (DclInit 1) 0 rfl rfl
  have t2 : DclStep 1 dclS1 dclS2 := DclStep.acquire dclS1 0 rfl rfl
  have t3 : DclStep 1 dclS2 dclS3 := DclStep.construct dclS2 0 rfl rfl
  have t4 : DclStep 1 dclS3 dclS4 := DclStep.unlockReturn dclS3 0 0 rfl rfl
  have hr : DclReachable 1 dclS4 :=
    Relation.ReflTransGen.head t1 (Relation.ReflTransGen.head t2
      (Relation.ReflTransGen.head t3 (Relation.ReflTransGen.single t4)))
  have h := C7_dcl_once 1 dclS4 hr
  have hf := h.2.1 0 0 rfl
  exact ⟨hf.1, hf.2, rfl⟩

/-- C8 counterexample: on a concrete 500 response the deferred close runs
but the body is NOT read to the end before `Send` returns the status error —
`client.go` only runs `defer resp.Body.Close()` and never drains the body
on the non-200 path. -/
theorem C8_body_not_drained_counterexample :
    (Send dummyClient (some cli500) clientA emptyRequest).1.trace.bodyClosed = true ∧
    (Send dummyClient (some cli500) clientA emptyRequest).1.trace.bodyReadToEnd = false ∧
    (Send dummyClient (some cli500) clientA emptyRequest).1.err =
      some (SendError.status (("SureTax returned ") ++ ("500 Internal Server Error"))) :=
  ⟨rfl, rfl, rfl⟩

/-- C8 (amended): when `Send` receives a response with a non-200 status
code, the deferred `resp.Body.Close()` still runs, but the body is not read
to the end (no drain-and-discard happens) and no decode is attempted before
the status error is returned. -/
theorem C8_amended_close_without_drain (dC : HttpClient) (ov : Option HttpClient)
    (c : SuretaxClient) (req : Request) (resp : HttpResponse)
    (hdo : resolvedClient dC ov c (buildRequest c req) = DoResult.ok resp)
    (hst : resp.statusCode ≠ 200) :
    (Send dC ov c req).1.trace.bodyClosed = true ∧
    (Send dC ov c req).1.trace.bodyReadToEnd = false ∧
    (Send dC ov c req).1.trace.decodeAttempted = false := by
  rw [send_eq_core]
  simp only [sendCore, hdo]
  rw [if_pos hst]
  exact ⟨rfl, rfl, rfl⟩

/-- C8 (amended) at the concrete 500 stub. -/
theorem C8_amended_close_without_drain_witness :
    (Send dummyClient (some cli500) clientA emptyRequest).1.trace.bodyClosed = true :=
  (C8_amended_close_without_drain dummyClient (some cli500) clientA emptyRequest
    ⟨500, ("500 Internal Server Error"), BodyRead.ok ("oops")⟩ rfl (by decide)).1

/-- C9: for every input and every transport outcome, `Send` and `Cancel`
return either no response and some error, or a response that is the fully
decoded payload of a 200 reply and no error — never both non-nil and never
a partially populated response on an error path. -/
theorem C9_result_xor_error (dC : HttpClient) (ov : Option HttpClient) (c : SuretaxClient)
    (req : Request) (creq : CancelRequest) :
    ((∃ e, (Send dC ov c req).1.resp = none ∧ (Send dC ov c req).1.err = some e) ∨
      (∃ r, (Send dC ov c req).1.resp = some r ∧ (Send dC ov c req).1.err = none ∧
        ∃ resp, resolvedClient dC ov c (buildRequest c req) = DoResult.ok resp ∧
          resp.statusCode = 200 ∧ parseResponse resp = Except.ok r)) ∧
    ((∃ e, (Cancel dC ov c creq).1.resp = none ∧ (Cancel dC ov c creq).1.err = some e) ∨
      (∃ r, (Cancel dC ov c creq).1.resp = some r ∧ (Cancel dC ov c creq).1.err = none ∧
        ∃ resp, resolvedClient dC ov c (buildCancelRequest c creq) = DoResult.ok resp ∧
          resp.statusCode = 200 ∧ parseCancelResponse resp = Except.ok r)) := by
  constructor
  · rw [send_eq_core]
    cases hcli : resolvedClient dC ov c (buildRequest c req) with
    | err m =>
      left
      exact ⟨SendError.transport m, by simp [sendCore, hcli], by simp [sendCore, hcli]⟩
    | ok resp =>
      by_cases h200 : resp.statusCode = 200
      · cases hpr : parseResponse resp with
        | error e =>
          left
          refine ⟨e, ?_, ?_⟩ <;> simp [sendCore, hcli, h200, hpr]
        | ok r =>
          right
          refine ⟨r, ?_, ?_, resp, rfl, h200, hpr⟩ <;> simp [sendCore, hcli, h200, hpr]
      · left
        refine ⟨SendError.status (("SureTax returned ") ++ resp.status), ?_, ?_⟩ <;>
          simp [sendCore, hcli, h200]
  · rw [cancel_eq_core]
    cases hcli : resolvedClient dC ov c (buildCancelRequest c creq) with
    | err m =>
      left
      exact ⟨SendError.transport m, by simp [cancelCore, hcli], by simp [cancelCore, hcli]⟩
    | ok resp =>
      by_cases h200 : resp.statusCode = 200
      · cases hpr : parseCancelResponse resp with
        | error e =>
          left
          refine ⟨e, ?_, ?_⟩ <;> simp [cancelCore, hcli, h200, hpr]
        | ok r =>
          right
          refine ⟨r, ?_, ?_, resp, rfl, h200, hpr⟩ <;> simp [cancelCore, hcli, h200, hpr]
      · left
        refine ⟨SendError.status (("SureTax returned ") ++ resp.status), ?_, ?_⟩ <;>
          simp [cancelCore, hcli, h200]

/-- C10: every 200 response whose body is a valid JSON object lacking the
`d` field unwraps to the empty string (Go's zero value for the missing
field), the inner parse of the empty string fails, and `Send` returns the
payload (inner unmarshal) error: not the envelope error and not a
zero-valued successful `Response`. -/
theorem C10_missing_d_is_payload_error (dC : HttpClient) (ov : Option HttpClient)
    (c : SuretaxClient) (req : Request) (resp : HttpResponse) (body : String)
    (o : List (String × Json))
    (hdo : resolvedClient dC ov c (buildRequest c req) = DoResult.ok resp)
    (hst : resp.statusCode = 200) (hb : resp.body = BodyRead.ok body)
    (hp : Json.parse body = some (Json.obj o)) (hd : lookupM o ("d") = none) :
    goUnmarshalWrapper body = some ⟨("")⟩ ∧
    goUnmarshalResponse ("") = none ∧
    (Send dC ov c req).1 = ⟨none, some SendError.payload, ⟨true, true, true⟩⟩ := by
  have hw : goUnmarshalWrapper body = some ⟨("")⟩ := by
    simp only [goUnmarshalWrapper, hp, Option.some_bind, ResponseWrapper.ofJson,
      jStrField, hd]
    rfl
  refine ⟨hw, rfl, ?_⟩
  rw [send_eq_core]
  simp only [sendCore, hdo]
  rw [if_neg (show ¬ resp.statusCode ≠ 200 by simp [hst])]
  simp only [parseResponse, hb, hw]
  rfl

/-- C10 at the concrete body `\x7b\x7d`: the empty JSON object lacks `d`,
and `Send` through the stub answering it returns the payload error. -/
theorem C10_missing_d_is_payload_error_witness :
    goUnmarshalWrapper ("\x7b\x7d") = some ⟨("")⟩ ∧
    goUnmarshalResponse ("") = none ∧
    (Send dummyClient (some cliEmptyObj) clientA emptyRequest).1 =
      ⟨none, some SendError.payload, ⟨true, true, true⟩⟩ :=
  C10_missing_d_is_payload_error dummyClient (some cliEmptyObj) clientA emptyRequest
    ⟨200, ("200 OK"), BodyRead.ok ("\x7b\x7d")⟩ ("\x7b\x7d") [] rfl rfl rfl rfl rfl

end Suretax
